import Mathlib

/-!
Verification of the order-detection and product-extraction core of the
subscribe-any browser extension, embedded shallowly in Lean 4.

Embedded source files:
  * extension/src/lib/detector.ts — URL/title/content classifiers and the
    HTML sanitizer extractPageContent;
  * extension/src/lib/llm.ts — parseOrderAnalysis (the LLM JSON-response
    normalizer) and analyzeOrderWithHeuristics (the text-only fallback).

Strings are modelled as lists of characters; JavaScript regular-expression
tests and global replacements over the fixed patterns appearing in the
source are implemented as explicit scanning functions with the same
leftmost-match / advance-on-failure semantics.  Floating-point numbers are
modelled by exact decimals (`Dec` below, valued in `ℚ` by `Dec.toRat`):
every number in the embedded code is a short decimal literal or the result
of decimal parsing, and no comparison or sum the code performs on them is
close enough to an IEEE-754 representation error for rounding to matter.
-/

namespace SubscribeAny

/-! ## Character classes used by the JavaScript regexes -/

/-- The apostrophe character, written via its code point. -/
def apos : Char := Char.ofNat 39

/-- The double-quote character, written via its code point. -/
def dquote : Char := Char.ofNat 34

/-- JavaScript `\s`: whitespace as matched by `/\s/` (ASCII whitespace plus
the no-break space and BOM; the exotic Unicode space separators do not occur
in any input considered here). -/
def isJsWs (c : Char) : Bool :=
  c = ' ' || c = '\t' || c = '\n' || c = '\r' ||
  c = Char.ofNat 11 || c = Char.ofNat 12 || c = Char.ofNat 160 || c = Char.ofNat 65279

/-- JavaScript `\w`: `[A-Za-z0-9_]`. -/
def isWordChar (c : Char) : Bool :=
  ('a' ≤ c && c ≤ 'z') || ('A' ≤ c && c ≤ 'Z') || ('0' ≤ c && c ≤ '9') || c = '_'

/-- JavaScript `\d`: `[0-9]`. -/
def isDigitChar (c : Char) : Bool := '0' ≤ c && c ≤ '9'

/-- ASCII `[a-z]` under the `i` flag: `[A-Za-z]`. -/
def isAsciiLetter (c : Char) : Bool := ('a' ≤ c && c ≤ 'z') || ('A' ≤ c && c ≤ 'Z')

/-- ASCII `[a-z0-9]` under the `i` flag. -/
def isAsciiAlnum (c : Char) : Bool := isAsciiLetter c || isDigitChar c

/-- Line terminators excluded by the JavaScript `.` metacharacter. -/
def isLineTerm (c : Char) : Bool :=
  c = '\n' || c = '\r' || c = Char.ofNat 8232 || c = Char.ofNat 8233

/-- Case-insensitive character comparison (the `/i` flag; all patterns in the
source are ASCII, where simple case folding agrees with `Char.toLower`). -/
def ciEq (a b : Char) : Bool := a.toLower = b.toLower

/-- Case-insensitive prefix test: does `pat` occur at the head of `l`? -/
def ciPrefixAt : List Char → List Char → Bool
  | [], _ => true
  | _ :: _, [] => false
  | p :: ps, c :: cs => ciEq p c && ciPrefixAt ps cs

/-- Case-insensitive substring search: does `pat` occur anywhere in `l`? -/
def containsCi (pat : List Char) : List Char → Bool
  | [] => pat.isEmpty
  | c :: cs => ciPrefixAt pat (c :: cs) || containsCi pat cs

/-- Index of the first case-insensitive occurrence of `pat` in `l`. -/
def findCi (pat : List Char) : List Char → Option Nat
  | [] => if pat.isEmpty then some 0 else none
  | c :: cs =>
    if ciPrefixAt pat (c :: cs) then some 0
    else (findCi pat cs).map (· + 1)

/-- Case-insensitive suffix test (for anchored `...$` patterns). -/
def endsWithCi (pat l : List Char) : Bool :=
  decide (pat.length ≤ l.length) && ciPrefixAt pat (l.drop (l.length - pat.length))

/-- Case-sensitive substring search (JavaScript `String.prototype.includes`). -/
def containsStr (pat : List Char) : List Char → Bool
  | [] => pat.isEmpty
  | c :: cs => pat.isPrefixOf (c :: cs) || containsStr pat cs

/-- JavaScript `String.prototype.trim` (strips `\s` from both ends). -/
def jsTrim (l : List Char) : List Char :=
  ((l.dropWhile isJsWs).reverse.dropWhile isJsWs).reverse

/-! ## Exact decimal numbers

Every number the embedded code computes with — pattern confidences,
thresholds, JSON numbers, parsed prices — is a decimal written in the
source or produced by decimal parsing, and every comparison or sum the
code performs on them is exact in IEEE-754 as well as over the rationals
(the decimals involved are short, and no comparison in the source is
close enough to a representation error for rounding to matter).  They are
modelled by `Dec`, an exact decimal `m · 10 ^ e` whose operations are
integer arithmetic (hence computable by the kernel), together with a
valuation `Dec.toRat` into `ℚ` used by the statements. -/

/-- An exact decimal number `m · 10 ^ e`. -/
structure Dec where
  m : Int
  e : Int
deriving DecidableEq, Repr

/-- The decimal `m · 10 ^ e`. -/
def decimal (m e : Int) : Dec := ⟨m, e⟩

/-- Powers of ten, as integers. -/
def tenPow : Nat → Int
  | 0 => 1
  | n + 1 => 10 * tenPow n

/-- The smaller of two integers (spelled out so that it reduces). -/
def intMin (a b : Int) : Int := if a ≤ b then a else b

/-- Numerator of `a` after rescaling to the common exponent with `b`. -/
def Dec.scaled (a : Dec) (emin : Int) : Int := a.m * tenPow (a.e - emin).toNat

/-- `a ≤ b` on decimals, by integer comparison at the common exponent. -/
def Dec.le (a b : Dec) : Bool :=
  decide (a.scaled (intMin a.e b.e) ≤ b.scaled (intMin a.e b.e))

/-- `a < b` on decimals. -/
def Dec.lt (a b : Dec) : Bool :=
  decide (a.scaled (intMin a.e b.e) < b.scaled (intMin a.e b.e))

/-- `Math.max` on decimals. -/
def Dec.max (a b : Dec) : Dec := if Dec.le a b then b else a

/-- `Math.min` on decimals. -/
def Dec.min (a b : Dec) : Dec := if Dec.le a b then a else b

/-- Addition on decimals, at the common exponent. -/
def Dec.add (a b : Dec) : Dec :=
  ⟨a.scaled (intMin a.e b.e) + b.scaled (intMin a.e b.e), intMin a.e b.e⟩

/-- The rational value of a decimal. -/
def Dec.toRat (a : Dec) : ℚ := (a.m : ℚ) * (10 : ℚ) ^ a.e

/-! ## A generic model of JavaScript global regex replacement

`String.prototype.replace` with a `/g` regex scans left to right: at each
position it attempts an anchored match; on success it emits the replacement
and resumes after the matched text, on failure it emits one character and
advances by one.  Every pattern used by `extractPageContent` matches at
least one character, so an attempt rule reports the replacement text
together with the remaining input, which is strictly shorter. -/

/-- One rewriting pass of a global replacement, on fuel.  `rule l` attempts
an anchored match at the head of `l`, returning `some (out, k)` on success,
where `out` is the replacement text and `k` the number of matched input
characters.  Every pattern used by the source matches at least one
character, so `max k 1` below never differs from `k` on a successful
match; it only guarantees progress, and fuel `length + 1` always
suffices because every step consumes at least one character. -/
def scanRewriteF (rule : List Char → Option (List Char × Nat)) :
    Nat → List Char → List Char
  | 0, l => l
  | _ + 1, [] => []
  | fuel + 1, c :: cs =>
    match rule (c :: cs) with
    | some (out, k) => out ++ scanRewriteF rule fuel ((c :: cs).drop (max k 1))
    | none => c :: scanRewriteF rule fuel cs

/-- One rewriting pass of a global replacement (see `scanRewriteF`). -/
def scanRewrite (rule : List Char → Option (List Char × Nat)) (l : List Char) :
    List Char :=
  scanRewriteF rule (l.length + 1) l

/-- Anchored-match rule for a fixed nonempty pattern string. -/
def litRule (pat rep : List Char) (l : List Char) : Option (List Char × Nat) :=
  if pat.isEmpty then none
  else if pat.isPrefixOf l then some (rep, pat.length) else none

/-- Global replacement of a fixed pattern string by a fixed replacement,
modelling `s.replace(/pat/g, rep)` for a literal pattern. -/
def replaceAllStr (pat rep : List Char) : List Char → List Char :=
  scanRewrite (litRule pat rep)

/-! ## The sanitizer `extractPageContent` (detector.ts lines 209–309)

Each `.replace(...)` pass of the source is one `scanRewrite` with an
anchored-match rule implementing the corresponding regular expression. -/

/-- Rule for `/<tag\b[^<]*(?:(?!<\/tag>)<[^<]*)*<\/tag>/gi` (used for
`script`, `style`, `noscript`, `svg`): from `<tag` (with a word boundary
after the tag name) through the first subsequent `</tag>`. -/
def tagBlockRule (tag : List Char) (l : List Char) : Option (List Char × Nat) :=
  match l with
  | [] => none
  | c :: cs =>
    if !(c = '<') then none
    else if ciPrefixAt tag cs then
      let rest := cs.drop tag.length
      if rest.head?.elim true (fun c => !isWordChar c) then
        match findCi ('<' :: '/' :: (tag ++ ['>'])) rest with
        | some k => some ([], 1 + tag.length + k + (tag.length + 3))
        | none => none
      else none
    else none

/-- Rule for `/<tag\b[^>]*>/gi` (used for `link`, `meta`). -/
def selfCloseRule (tag : List Char) (l : List Char) : Option (List Char × Nat) :=
  match l with
  | [] => none
  | c :: cs =>
    if !(c = '<') then none
    else if ciPrefixAt tag cs then
      let rest := cs.drop tag.length
      if rest.head?.elim true (fun c => !isWordChar c) then
        match rest.findIdx? (· = '>') with
        | some k => some ([], 1 + tag.length + k + 1)
        | none => none
      else none
    else none

/-- Rule for `/<!--[\s\S]*?-->/g`: from `<!--` through the first `-->`. -/
def commentRule (l : List Char) : Option (List Char × Nat) :=
  match l with
  | [] => none
  | c :: cs =>
    if !(c = '<') then none
    else if ['!', '-', '-'].isPrefixOf cs then
      match findCi ['-', '-', '>'] (cs.drop 3) with
      | some k => some ([], 1 + 3 + k + 3)
      | none => none
    else none

/-- Does a `class="..."` attribute whose value mentions main/site/global
occur in this open-tag region?  (For the noise-block removal pass.) -/
def noiseClassHit : List Char → Bool
  | [] => false
  | c :: cs =>
    (ciPrefixAt ("class=".toList ++ [dquote]) (c :: cs) &&
      (let v := ((c :: cs).drop 7).takeWhile (· ≠ dquote)
       (((c :: cs).drop 7).drop v.length).head? = some dquote &&
         (containsCi "main".toList v || containsCi "site".toList v ||
          containsCi "global".toList v))) ||
    noiseClassHit cs

/-- Anchored match for one alternative of the noise-block pattern
`/<(header|footer|nav|aside)\b[^>]*class="[^"]*(?:main|site|global)[^"]*"[^>]*>[\s\S]*?<\/\1>/gi`. -/
def noiseTagAt (tag : List Char) (cs : List Char) : Option Nat :=
  if ciPrefixAt tag cs then
    let rest := cs.drop tag.length
    if rest.head?.elim true (fun c => !isWordChar c) then
      match rest.findIdx? (· = '>') with
      | some k =>
        if noiseClassHit (rest.take k) then
          match findCi ('<' :: '/' :: (tag ++ ['>'])) (rest.drop (k + 1)) with
          | some j => some (1 + tag.length + k + 1 + j + (tag.length + 3))
          | none => none
        else none
      | none => none
    else none
  else none

/-- Rule for the noise-block removal pass (detector.ts line 226). -/
def noiseRule (l : List Char) : Option (List Char × Nat) :=
  match l with
  | [] => none
  | c :: cs =>
    if !(c = '<') then none
    else
    match noiseTagAt "header".toList cs with
    | some n => some ([], n)
    | none =>
      match noiseTagAt "footer".toList cs with
      | some n => some ([], n)
      | none =>
        match noiseTagAt "nav".toList cs with
        | some n => some ([], n)
        | none =>
          match noiseTagAt "aside".toList cs with
          | some n => some ([], n)
          | none => none

/-- First capture of `/name\s*=\s*["']([^"']*)["']/i` inside an attribute
string, anchored at the head of `l`. -/
def attrCaptureAt (name : List Char) (l : List Char) : Option (List Char) :=
  if ciPrefixAt name l then
    let r2 := (l.drop name.length).dropWhile isJsWs
    match r2 with
    | '=' :: r3 =>
      match r3.dropWhile isJsWs with
      | q :: r5 =>
        if q = dquote || q = apos then
          let v := r5.takeWhile (fun c => !(c = dquote || c = apos))
          match (r5.drop v.length).head? with
          | some q2 => if q2 = dquote || q2 = apos then some v else none
          | none => none
        else none
      | [] => none
    | _ => none
  else none

/-- Leftmost capture of `/name\s*=\s*["']([^"']*)["']/i` in `l`. -/
def attrCapture (name : List Char) : List Char → Option (List Char)
  | [] => none
  | c :: cs =>
    match attrCaptureAt name (c :: cs) with
    | some v => some v
    | none => attrCapture name cs

/-- Anchored match of `/data-[a-z0-9-]+\s*=\s*["'][^"']*["']/gi`, returning
the raw matched text and its length. -/
def dataAttrAt (l : List Char) : Option (List Char × Nat) :=
  if ciPrefixAt "data-".toList l then
    let r1 := l.drop 5
    let nm := r1.takeWhile (fun c => isAsciiAlnum c || c = '-')
    if nm.isEmpty then none
    else
      let r2 := r1.drop nm.length
      let w1 := r2.takeWhile isJsWs
      match r2.drop w1.length with
      | '=' :: r3 =>
        let w2 := r3.takeWhile isJsWs
        match r3.drop w2.length with
        | q :: r4 =>
          if q = dquote || q = apos then
            let v := r4.takeWhile (fun c => !(c = dquote || c = apos))
            match (r4.drop v.length).head? with
            | some q2 =>
              if q2 = dquote || q2 = apos then
                let len := 5 + nm.length + w1.length + 1 + w2.length + 1 + v.length + 1
                some (l.take len, len)
              else none
            | none => none
          else none
        | [] => none
      | _ => none
  else none

/-- All raw matches of `/data-[a-z0-9-]+\s*=\s*["'][^"']*["']/gi`, on fuel
(every match consumes at least one character, so fuel `length + 1`
suffices). -/
def dataMatchesF : Nat → List Char → List (List Char)
  | 0, _ => []
  | _ + 1, [] => []
  | fuel + 1, c :: cs =>
    match dataAttrAt (c :: cs) with
    | some (m, len) => m :: dataMatchesF fuel ((c :: cs).drop (max len 1))
    | none => dataMatchesF fuel cs

/-- All raw matches of `/data-[a-z0-9-]+\s*=\s*["'][^"']*["']/gi` in `l`
(`attrs.match(...) || []` in the source). -/
def dataMatches (l : List Char) : List (List Char) :=
  dataMatchesF (l.length + 1) l

/-- `name="value"` formatting used when the callback re-emits an attribute. -/
def fmtAttr (name v : List Char) : List Char := name ++ ['='] ++ [dquote] ++ v ++ [dquote]

/-- The semantic-attribute allowlist of the attribute-pruning callback. -/
def semanticAttrs : List (List Char) :=
  ["role".toList, "aria-label".toList, "aria-labelledby".toList,
   "aria-describedby".toList, "itemprop".toList, "itemscope".toList,
   "itemtype".toList]

/-- The attribute-pruning callback (detector.ts lines 229–270): keep class,
id, all `data-*` attributes, the semantic allowlist, `href` on `<a>` and
`src`/`alt` on `<img>`. -/
def rebuildTag (tagName attrs : List Char) : List Char :=
  let keep : List (List Char) :=
    ((attrCapture "class".toList attrs).elim [] (fun v => [fmtAttr "class".toList v])) ++
    ((attrCapture "id".toList attrs).elim [] (fun v => [fmtAttr "id".toList v])) ++
    dataMatches attrs ++
    (semanticAttrs.foldr
      (fun a acc => ((attrCapture a attrs).elim [] (fun v => [fmtAttr a v])) ++ acc) []) ++
    (if tagName.map Char.toLower = ['a'] then
        (attrCapture "href".toList attrs).elim [] (fun v => [fmtAttr "href".toList v])
      else []) ++
    (if tagName.map Char.toLower = "img".toList then
        ((attrCapture "src".toList attrs).elim [] (fun v => [fmtAttr "src".toList v])) ++
        ((attrCapture "alt".toList attrs).elim [] (fun v => [fmtAttr "alt".toList v]))
      else [])
  if keep.isEmpty then '<' :: (tagName ++ ['>'])
  else '<' :: (tagName ++ [' '] ++ (List.intercalate [' '] keep) ++ ['>'])

/-- Rule for `/<([a-z][a-z0-9]*)\s+([^>]*)>/gi` with the attribute-pruning
callback. -/
def simplifyTagRule (l : List Char) : Option (List Char × Nat) :=
  match l with
  | [] => none
  | c0 :: rest0 =>
    if !(c0 = '<') then none
    else
    match rest0 with
    | [] => none
    | c :: cs =>
    if isAsciiLetter c then
      let tagName := c :: cs.takeWhile isAsciiAlnum
      let rest1 := cs.drop (tagName.length - 1)
      let wsRun := rest1.takeWhile isJsWs
      if wsRun.isEmpty then none
      else
        let rest2 := rest1.drop wsRun.length
        match rest2.findIdx? (· = '>') with
        | some k =>
          some (rebuildTag tagName (rest2.take k),
                1 + tagName.length + wsRun.length + k + 1)
        | none => none
    else none

/-- The six entity-decoding replacements, applied in source order. -/
def decodeEntities (l : List Char) : List Char :=
  replaceAllStr "&#39;".toList [apos]
    (replaceAllStr "&quot;".toList [dquote]
      (replaceAllStr "&gt;".toList ['>']
        (replaceAllStr "&lt;".toList ['<']
          (replaceAllStr "&amp;".toList ['&']
            (replaceAllStr "&nbsp;".toList [' '] l)))))

/-- Rule for `/<[^>]+>/g → ' '` (strip all tags when deriving plain text). -/
def stripTagsRule (l : List Char) : Option (List Char × Nat) :=
  match l with
  | [] => none
  | c :: cs =>
    if !(c = '<') then none
    else
    match cs.findIdx? (· = '>') with
    | some k => if k = 0 then none else some ([' '], k + 2)
    | none => none

/-- Rule for `/\s+/g → ' '` (whitespace normalization). -/
def collapseWsRule (l : List Char) : Option (List Char × Nat) :=
  match l with
  | [] => none
  | c :: cs =>
    if isJsWs c then some ([' '], ((c :: cs).takeWhile isJsWs).length) else none

/-- Maximal tag-name length `n ≥ 1` such that `run.take n` is matched
case-insensitively at the head of `r` and is followed by `>` (the greedy
backreference resolution for the empty-tag-pair pattern). -/
def bestTagLen (run r : List Char) : Option Nat :=
  (((List.range run.length).map (· + 1)).reverse).find?
    (fun n => ciPrefixAt (run.take n) r && decide ((r.drop n).head? = some '>'))

/-- Rule for `/<([a-z][a-z0-9]*)[^>]*>\s*<\/\1>/gi → ''` (empty tag pairs). -/
def emptyTagRule (l : List Char) : Option (List Char × Nat) :=
  match l with
  | [] => none
  | c0 :: rest0 =>
    if !(c0 = '<') then none
    else
    match rest0 with
    | [] => none
    | c :: cs =>
    if isAsciiLetter c then
      let alnumRun := c :: cs.takeWhile isAsciiAlnum
      match (c :: cs).findIdx? (· = '>') with
      | some k =>
        let afterGt := (c :: cs).drop (k + 1)
        let ws := afterGt.takeWhile isJsWs
        match afterGt.drop ws.length with
        | '<' :: '/' :: r =>
          match bestTagLen alnumRun r with
          | some n => some ([], 1 + (k + 1) + ws.length + 2 + n + 1)
          | none => none
        | _ => none
      | none => none
    else none

/-- Rule for `/>\s+</g → '><'`. -/
def gtWsLtRule (l : List Char) : Option (List Char × Nat) :=
  match l with
  | [] => none
  | c :: cs =>
    if !(c = '>') then none
    else
    let run := cs.takeWhile isJsWs
    if run.isEmpty then none
    else if (cs.drop run.length).head? = some '<' then
      some (['>', '<'], 1 + run.length + 1)
    else none

/-- Rule for `/>\s+/g → '> '`. -/
def gtWsRule (l : List Char) : Option (List Char × Nat) :=
  match l with
  | [] => none
  | c :: cs =>
    if !(c = '>') then none
    else
    let run := cs.takeWhile isJsWs
    if run.isEmpty then none else some (['>', ' '], 1 + run.length)

/-- Rule for `/\s+</g → ' <'`. -/
def wsLtRule (l : List Char) : Option (List Char × Nat) :=
  match l with
  | [] => none
  | c :: cs =>
    if isJsWs c then
      let run := (c :: cs).takeWhile isJsWs
      if ((c :: cs).drop run.length).head? = some '<' then
        some ([' ', '<'], run.length + 1)
      else none
    else none

/-- The shared sanitation pipeline up to and including entity decoding
(the successive reassignments of `content` in the source). -/
def sanitizedContent (l : List Char) : List Char :=
  decodeEntities
    (scanRewrite simplifyTagRule
      (scanRewrite noiseRule
        (scanRewrite commentRule
          (scanRewrite (selfCloseRule "meta".toList)
            (scanRewrite (selfCloseRule "link".toList)
              (scanRewrite (tagBlockRule "svg".toList)
                (scanRewrite (tagBlockRule "noscript".toList)
                  (scanRewrite (tagBlockRule "style".toList)
                    (scanRewrite (tagBlockRule "script".toList) l)))))))))

/-- The plain-text projection (`text` in the source). -/
def textProjection (content : List Char) : List Char :=
  jsTrim (scanRewrite collapseWsRule (scanRewrite stripTagsRule content))

/-- The structured-HTML projection (`htmlContent` in the source). -/
def htmlProjection (content : List Char) : List Char :=
  jsTrim
    (scanRewrite wsLtRule
      (scanRewrite gtWsRule
        (scanRewrite gtWsLtRule
          (scanRewrite collapseWsRule (scanRewrite emptyTagRule content)))))

/-- The truncation marker appended when a projection is cut. -/
def truncMarker : List Char := "...[truncated]".toList

/-- `if (s.length > cap) s = s.substring(0, cap) + marker`. -/
def truncateAt (cap : Nat) (l : List Char) : List Char :=
  if cap < l.length then l.take cap ++ truncMarker else l

/-- The `{html, text}` pair returned by `extractPageContent`. -/
structure PageContent where
  html : String
  text : String
deriving DecidableEq, Repr

/-- `extractPageContent` (detector.ts lines 209–309). -/
def extractPageContent (rawHtml : String) : PageContent :=
  let content := sanitizedContent rawHtml.toList
  { html := String.mk (truncateAt 60000 (htmlProjection content)),
    text := String.mk (truncateAt 30000 (textProjection content)) }

/-! ## Regex tests for the detector pattern tables (detector.ts lines 20–89)

Each table regex becomes a boolean test on the character list; `existsPos`
models the regex engine trying every start position left to right. -/

/-- Does `f` hold at some suffix of `l` (including the empty one)? -/
def existsPos (f : List Char → Bool) : List Char → Bool
  | [] => f []
  | c :: cs => f (c :: cs) || existsPos f cs

/-- Skip `\s*`. -/
def skipWs (l : List Char) : List Char := l.dropWhile isJsWs

/-- Test for `/a.*b/i`: an occurrence of `a` followed by an occurrence of
`b` with no line terminator in between (`.` does not match newlines). -/
def dotStarPat (a b : List Char) : List Char → Bool :=
  existsPos (fun s =>
    ciPrefixAt a s && containsCi b ((s.drop a.length).takeWhile (fun c => !isLineTerm c)))

/-- Test for `/seg\d/i`-style patterns: literal `seg` followed by a digit. -/
def segThenDigit (seg : List Char) : List Char → Bool :=
  existsPos (fun s => ciPrefixAt seg s && (s.drop seg.length).head?.elim false isDigitChar)

/-- Test for `/a\s*b/i`. -/
def wsSeq2 (a b : List Char) : List Char → Bool :=
  existsPos (fun s => ciPrefixAt a s && ciPrefixAt b (skipWs (s.drop a.length)))

/-- Test for `/\/thank-?you.*order/i`. -/
def urlThankYouOrder (l : List Char) : Bool :=
  dotStarPat "/thankyou".toList "order".toList l ||
  dotStarPat "/thank-you".toList "order".toList l

/-- Test for `/\/product\/[^\/]+\/?$/i` (anchored at the end of the URL). -/
def productDetailPat (l : List Char) : Bool :=
  existsPos (fun s =>
    ciPrefixAt "/product/".toList s &&
    (let r := s.drop 9
     !r.isEmpty &&
       (r.all (· ≠ '/') ||
        (r.getLast? = some '/' && r.dropLast.all (· ≠ '/') && !r.dropLast.isEmpty)))) l

/-- Continuation `\s*(#|number|no\.?)\s*[:\s]?\s*[\w-]+` of the two
order-number content patterns, tried at the text following the head word. -/
def numberTokenAfter (s : List Char) : Bool :=
  let r := skipWs s
  let alts : List Nat :=
    (if r.head? = some '#' then [1] else []) ++
    (if ciPrefixAt "number".toList r then [6] else []) ++
    (if ciPrefixAt "no.".toList r then [3] else []) ++
    (if ciPrefixAt "no".toList r then [2] else [])
  alts.any (fun n =>
    let r2 := skipWs (r.drop n)
    let r3 := if r2.head? = some ':' then r2.drop 1 else r2
    (skipWs r3).head?.elim false (fun c => isWordChar c || c = '-'))

/-- Test for `/order\s*(#|number|no\.?)\s*[:\s]?\s*[\w-]+/i`. -/
def contentOrderNumberPat : List Char → Bool :=
  existsPos (fun s => ciPrefixAt "order".toList s && numberTokenAfter (s.drop 5))

/-- Test for `/confirmation\s*(#|number|no\.?)\s*[:\s]?\s*[\w-]+/i`. -/
def contentConfirmationNumberPat : List Char → Bool :=
  existsPos (fun s => ciPrefixAt "confirmation".toList s && numberTokenAfter (s.drop 12))

/-- The final alternation of `/your\s*order\s*(has\s*been\s*)?(confirmed|placed|received)/i`. -/
def confirmedPlacedReceived (r : List Char) : Bool :=
  ciPrefixAt "confirmed".toList r || ciPrefixAt "placed".toList r ||
  ciPrefixAt "received".toList r

/-- Optional `has\s*been\s*` connective followed by a final test. -/
def optHasBeen (fin : List Char → Bool) (r : List Char) : Bool :=
  fin r ||
  (ciPrefixAt "has".toList r &&
    (let r2 := skipWs (r.drop 3)
     ciPrefixAt "been".toList r2 && fin (skipWs (r2.drop 4))))

/-- Test for `/your\s*order\s*(has\s*been\s*)?(confirmed|placed|received)/i`. -/
def contentOrderConfirmedPat : List Char → Bool :=
  existsPos (fun s =>
    ciPrefixAt "your".toList s &&
    (let r := skipWs (s.drop 4)
     ciPrefixAt "order".toList r &&
       optHasBeen confirmedPlacedReceived (skipWs (r.drop 5))))

/-- Test for `/thank\s*you\s*for\s*(your\s*)?(order|purchase)/i`. -/
def contentThankYouPat : List Char → Bool :=
  existsPos (fun s =>
    ciPrefixAt "thank".toList s &&
    (let r := skipWs (s.drop 5)
     ciPrefixAt "you".toList r &&
       (let r2 := skipWs (r.drop 3)
        ciPrefixAt "for".toList r2 &&
          (let r3 := skipWs (r2.drop 3)
           (ciPrefixAt "order".toList r3 || ciPrefixAt "purchase".toList r3) ||
             (ciPrefixAt "your".toList r3 &&
               (let r4 := skipWs (r3.drop 4)
                ciPrefixAt "order".toList r4 || ciPrefixAt "purchase".toList r4))))))

/-- Test for `/confirmation\s*email\s*(has\s*been\s*)?sent/i`. -/
def contentEmailSentPat : List Char → Bool :=
  existsPos (fun s =>
    ciPrefixAt "confirmation".toList s &&
    (let r := skipWs (s.drop 12)
     ciPrefixAt "email".toList r &&
       optHasBeen (fun r2 => ciPrefixAt "sent".toList r2) (skipWs (r.drop 5))))

/-- Trailing part `\s*received\s*your\s*order` of the last content pattern. -/
def receivedYourOrder (r : List Char) : Bool :=
  let r2 := skipWs r
  ciPrefixAt "received".toList r2 &&
    (let r3 := skipWs (r2.drop 8)
     ciPrefixAt "your".toList r3 &&
       ciPrefixAt "order".toList (skipWs (r3.drop 4)))

/-- The `.*have` branch of `/we('ve|.*have)\s*.../i`: an occurrence of
`have` reachable without crossing a line terminator. -/
def dotStarHave : List Char → Bool
  | [] => false
  | c :: cs =>
    if isLineTerm c then false
    else
      (ciPrefixAt "have".toList (c :: cs) && receivedYourOrder ((c :: cs).drop 4)) ||
      dotStarHave cs

/-- Test for `/we('ve|.*have)\s*received\s*your\s*order/i`. -/
def contentOrderReceivedPat : List Char → Bool :=
  existsPos (fun s =>
    ciPrefixAt "we".toList s &&
    (let r := s.drop 2
     (ciPrefixAt ([apos] ++ "ve".toList) r && receivedYourOrder (r.drop 3)) ||
       dotStarHave r))

/-! ## The detector pattern tables and classifiers -/

/-- One entry of a `{pattern, trigger, confidence}` table. -/
structure UrlPattern where
  test : List Char → Bool
  trigger : String
  confidence : Dec

/-- `ORDER_CONFIRMATION_PATTERNS` (detector.ts lines 21–37). -/
def ORDER_CONFIRMATION_PATTERNS : List UrlPattern := [
  ⟨containsCi "/checkout/order-confirmation".toList, "checkout-order-confirmation", decimal 9 (-1)⟩,
  ⟨containsCi "/order-confirmation".toList, "url-order-confirmation", decimal 85 (-2)⟩,
  ⟨containsCi "/order/confirm".toList, "url-order-confirm", decimal 8 (-1)⟩,
  ⟨containsCi "/order/success".toList, "url-order-success", decimal 8 (-1)⟩,
  ⟨containsCi "/checkout/complete".toList, "url-checkout-complete", decimal 8 (-1)⟩,
  ⟨fun l => containsCi "/checkout/thankyou".toList l ||
            containsCi "/checkout/thank-you".toList l, "url-checkout-thank-you", decimal 75 (-2)⟩,
  ⟨fun l => containsCi "/order/thankyou".toList l ||
            containsCi "/order/thank-you".toList l, "url-order-thank-you", decimal 85 (-2)⟩,
  ⟨urlThankYouOrder, "url-thank-you-order", decimal 75 (-2)⟩,
  ⟨containsCi "/purchase/complete".toList, "url-purchase-complete", decimal 8 (-1)⟩,
  ⟨containsCi "/receipt".toList, "url-receipt", decimal 7 (-1)⟩,
  ⟨fun l => endsWithCi "/confirmation".toList l ||
            endsWithCi "/confirmation/".toList l, "url-confirmation", decimal 6 (-1)⟩,
  ⟨segThenDigit "/orders/".toList, "url-order-view", decimal 7 (-1)⟩,
  ⟨segThenDigit "/order/".toList, "url-order-id", decimal 7 (-1)⟩]

/-- `ORDER_DETAILS_PATTERNS` (detector.ts lines 40–57). -/
def ORDER_DETAILS_PATTERNS : List UrlPattern := [
  ⟨containsCi "/order-details".toList, "order-details", decimal 9 (-1)⟩,
  ⟨containsCi "/order/details".toList, "order-slash-details", decimal 9 (-1)⟩,
  ⟨dotStarPat "/previous-orders".toList "order".toList, "previous-order-details", decimal 9 (-1)⟩,
  ⟨dotStarPat "/my-account".toList "order".toList, "account-order", decimal 85 (-2)⟩,
  ⟨dotStarPat "/account".toList "order-details".toList, "account-order-details", decimal 9 (-1)⟩,
  ⟨segThenDigit "/orders/".toList, "order-details-id", decimal 85 (-2)⟩,
  ⟨segThenDigit "/order/".toList, "order-detailed-id", decimal 85 (-2)⟩,
  ⟨containsCi "orderId=".toList, "order-id-param", decimal 85 (-2)⟩,
  ⟨containsCi "order_id=".toList, "order-id-param-underscore", decimal 85 (-2)⟩,
  ⟨containsCi "/order/view".toList, "order-view", decimal 85 (-2)⟩,
  ⟨containsCi "/view-order".toList, "view-order", decimal 85 (-2)⟩,
  ⟨containsCi "/order-history".toList, "order-history", decimal 7 (-1)⟩,
  ⟨containsCi "/your-orders".toList, "your-orders", decimal 7 (-1)⟩,
  ⟨containsCi "/purchase-history".toList, "purchase-history", decimal 7 (-1)⟩]

/-- `EXCLUDE_PATTERNS` (detector.ts lines 60–70). -/
def EXCLUDE_PATTERNS : List (List Char → Bool) := [
  fun l => endsWithCi "/cart".toList l || endsWithCi "/cart/".toList l,
  containsCi "/cart?".toList,
  fun l => endsWithCi "/checkout".toList l || endsWithCi "/checkout/".toList l,
  containsCi "/dp/".toList,
  productDetailPat,
  containsCi "/login".toList,
  containsCi "/signin".toList,
  containsCi "/register".toList,
  containsCi "/password".toList]

/-- Test for `/thank\s*you.*order/i` (the second title pattern). -/
def titleThankYouOrderPat : List Char → Bool :=
  existsPos (fun s =>
    ciPrefixAt "thank".toList s &&
    (let r := skipWs (s.drop 5)
     ciPrefixAt "you".toList r &&
       containsCi "order".toList ((r.drop 3).takeWhile (fun c => !isLineTerm c))))

/-- `TITLE_CONFIRMATION_PATTERNS` (detector.ts lines 73–79). -/
def TITLE_CONFIRMATION_PATTERNS : List UrlPattern := [
  ⟨wsSeq2 "order".toList "confirm".toList, "title-order-confirmation", decimal 8 (-1)⟩,
  ⟨titleThankYouOrderPat, "title-thank-you-order", decimal 8 (-1)⟩,
  ⟨wsSeq2 "order".toList "placed".toList, "title-order-placed", decimal 85 (-2)⟩,
  ⟨wsSeq2 "purchase".toList "confirm".toList, "title-purchase-confirm", decimal 8 (-1)⟩,
  ⟨wsSeq2 "order".toList "complete".toList, "title-order-complete", decimal 85 (-2)⟩]

/-- `CONTENT_CONFIRMATION_PATTERNS` (detector.ts lines 82–89). -/
def CONTENT_CONFIRMATION_PATTERNS : List UrlPattern := [
  ⟨contentOrderNumberPat, "content-order-number", decimal 7 (-1)⟩,
  ⟨contentConfirmationNumberPat, "content-confirmation-number", decimal 7 (-1)⟩,
  ⟨contentOrderConfirmedPat, "content-order-confirmed", decimal 75 (-2)⟩,
  ⟨contentThankYouPat, "content-thank-you", decimal 65 (-2)⟩,
  ⟨contentEmailSentPat, "content-email-sent", decimal 6 (-1)⟩,
  ⟨contentOrderReceivedPat, "content-order-received", decimal 75 (-2)⟩]

/-- The `{isLikelyOrderConfirmation, confidence, triggers}` record. -/
structure PageDetectionResult where
  isLikelyOrderConfirmation : Bool
  confidence : Dec
  triggers : List String
deriving DecidableEq, Repr

/-- The accumulation loop over a pattern table used by the two URL
classifiers: push each matching trigger, keep the max confidence. -/
def patternScan (s : List Char) : List UrlPattern → List String × Dec → List String × Dec
  | [], acc => acc
  | p :: ps, (trs, mc) =>
    if p.test s then patternScan s ps (trs ++ [p.trigger], Dec.max mc p.confidence)
    else patternScan s ps (trs, mc)

/-- `isLikelyOrderConfirmationUrl` (detector.ts lines 94–122). -/
def isLikelyOrderConfirmationUrl (url : String) : PageDetectionResult :=
  if EXCLUDE_PATTERNS.any (fun t => t url.toList) then
    ⟨false, decimal 0 0, []⟩
  else
    let r := patternScan url.toList ORDER_CONFIRMATION_PATTERNS ([], decimal 0 0)
    ⟨Dec.le (decimal 6 (-1)) r.2, r.2, r.1⟩

/-- `getUrlConfidenceScore` (detector.ts lines 127–130). -/
def getUrlConfidenceScore (url : String) : Dec :=
  (isLikelyOrderConfirmationUrl url).confidence

/-- `isOrderDetailsPage` (detector.ts lines 135–151): the details table is
scanned the same way, with threshold 0.7 — and no exclusion check. -/
def isOrderDetailsPage (url : String) : PageDetectionResult :=
  let r := patternScan url.toList ORDER_DETAILS_PATTERNS ([], decimal 0 0)
  ⟨Dec.le (decimal 7 (-1)) r.2, r.2, r.1⟩

/-- The accumulation loop of the page classifier: push each matching
trigger, add (not max) the confidence. -/
def addScan (s : List Char) : List UrlPattern → List String × Dec → List String × Dec
  | [], acc => acc
  | p :: ps, (trs, tc) =>
    if p.test s then addScan s ps (trs ++ [p.trigger], Dec.add tc p.confidence)
    else addScan s ps (trs, tc)

/-- The `{url, title, bodyText}` input of the page classifier. -/
structure PageInput where
  url : String
  title : String
  bodyText : String

/-- `isLikelyOrderConfirmationPage` (detector.ts lines 156–203). -/
def isLikelyOrderConfirmationPage (page : PageInput) : PageDetectionResult :=
  let urlResult := isLikelyOrderConfirmationUrl page.url
  let acc0 : List String × Dec :=
    if urlResult.isLikelyOrderConfirmation then
      (urlResult.triggers, urlResult.confidence)
    else ([], decimal 0 0)
  let acc1 := addScan page.title.toList TITLE_CONFIRMATION_PATTERNS acc0
  let acc2 := addScan page.bodyText.toList CONTENT_CONFIRMATION_PATTERNS acc1
  let normalizedConfidence := Dec.min acc2.2 (decimal 1 0)
  let hasUrlOrTitleSignal := acc2.1.any (fun t =>
    "url-".toList.isPrefixOf t.toList || "title-".toList.isPrefixOf t.toList ||
      "checkout-".toList.isPrefixOf t.toList)
  let threshold : Dec := if hasUrlOrTitleSignal then decimal 4 (-1) else decimal 7 (-1)
  ⟨Dec.le threshold normalizedConfidence && decide (0 < acc2.1.length),
   normalizedConfidence, acc2.1⟩

/-! ## JavaScript values and `JSON.parse`

`parseOrderAnalysis` feeds a substring of the LLM response to `JSON.parse`
and then normalizes the untyped result.  JSON values are modelled by
`JsonVal`; `jsonParse` is a strict recursive-descent parser for the JSON
grammar (`none` models a thrown `SyntaxError`); numbers are kept as exact
rationals. -/

/-- An untyped JSON value. -/
inductive JsonVal where
  | null
  | bool (b : Bool)
  | num (q : Dec)
  | str (s : String)
  | arr (elems : List JsonVal)
  | obj (fields : List (String × JsonVal))

/-- JSON insignificant whitespace. -/
def jsonWs (c : Char) : Bool := c = ' ' || c = '\t' || c = '\n' || c = '\r'

/-- Hexadecimal digit value. -/
def hexVal (c : Char) : Option Nat :=
  if '0' ≤ c && c ≤ '9' then some (c.toNat - 48)
  else if 'a' ≤ c && c ≤ 'f' then some (c.toNat - 87)
  else if 'A' ≤ c && c ≤ 'F' then some (c.toNat - 55)
  else none

/-- Single-character escape sequences of JSON strings. -/
def escChar (e : Char) : Option Char :=
  if e = dquote then some dquote
  else if e = '\\' then some '\\'
  else if e = '/' then some '/'
  else if e = 'b' then some (Char.ofNat 8)
  else if e = 'f' then some (Char.ofNat 12)
  else if e = 'n' then some '\n'
  else if e = 'r' then some '\r'
  else if e = 't' then some '\t'
  else none

/-- Parse the body of a JSON string after the opening quote, returning the
decoded characters and the input after the closing quote. -/
def parseJStringChars : List Char → Option (List Char × List Char)
  | [] => none
  | c :: cs =>
    if c = dquote then some ([], cs)
    else if c = '\\' then
      match cs with
      | [] => none
      | e :: cs2 =>
        if e = 'u' then
          match cs2 with
          | a :: b :: c3 :: d :: cs3 =>
            match hexVal a, hexVal b, hexVal c3, hexVal d with
            | some x1, some x2, some x3, some x4 =>
              (parseJStringChars cs3).map
                (fun vr => (Char.ofNat (((x1 * 16 + x2) * 16 + x3) * 16 + x4) :: vr.1, vr.2))
            | _, _, _, _ => none
          | _ => none
        else
          match escChar e with
          | some ec => (parseJStringChars cs2).map (fun vr => (ec :: vr.1, vr.2))
          | none => none
    else if c.toNat < 32 then none
    else (parseJStringChars cs).map (fun vr => (c :: vr.1, vr.2))

/-- Numeric value of a digit string. -/
def digitsVal (l : List Char) : Nat := l.foldl (fun a c => a * 10 + (c.toNat - 48)) 0

/-- Parse a JSON number (strict grammar, exact decimal value):
the digits `i.f` with exponent `x` denote `(i·10^|f| + f) · 10^(x-|f|)`. -/
def parseJNumber (l : List Char) : Option (Dec × List Char) :=
  let sign : Int := if l.head? = some '-' then -1 else 1
  let l1 := if l.head? = some '-' then l.drop 1 else l
  let intDigits := l1.takeWhile isDigitChar
  if intDigits.isEmpty then none
  else if 1 < intDigits.length && intDigits.head? = some '0' then none
  else
    let l2 := l1.drop intDigits.length
    let fracDigits :=
      if l2.head? = some '.' then (l2.drop 1).takeWhile isDigitChar else []
    let l3 :=
      if l2.head? = some '.' then (l2.drop 1).drop fracDigits.length else l2
    let mantissa : Int :=
      sign * ((digitsVal intDigits : Int) * tenPow fracDigits.length + (digitsVal fracDigits : Int))
    if l2.head? = some '.' && fracDigits.isEmpty then none
    else if l3.head? = some 'e' || l3.head? = some 'E' then
      let l3a := l3.drop 1
      let esign : Int := if l3a.head? = some '-' then -1 else 1
      let l3b :=
        if l3a.head? = some '+' || l3a.head? = some '-' then l3a.drop 1 else l3a
      let eds := l3b.takeWhile isDigitChar
      if eds.isEmpty then none
      else
        some (⟨mantissa, esign * (digitsVal eds : Int) - (fracDigits.length : Int)⟩,
              l3b.drop eds.length)
    else
      some (⟨mantissa, -(fracDigits.length : Int)⟩, l3)

mutual

/-- Parse one JSON value (leading whitespace allowed). -/
def parseJValue : Nat → List Char → Option (JsonVal × List Char)
  | 0, _ => none
  | fuel + 1, l =>
    match l.dropWhile jsonWs with
    | [] => none
    | c :: cs =>
      if c = dquote then
        (parseJStringChars cs).map (fun vr => (.str (String.mk vr.1), vr.2))
      else if c = '{' then
        match cs.dropWhile jsonWs with
        | '}' :: r => some (.obj [], r)
        | _ => (parseJMembers fuel cs []).map (fun fr => (.obj fr.1, fr.2))
      else if c = '[' then
        match cs.dropWhile jsonWs with
        | ']' :: r => some (.arr [], r)
        | _ => (parseJElems fuel cs []).map (fun er => (.arr er.1, er.2))
      else if c = 't' then
        if "rue".toList.isPrefixOf cs then some (.bool true, cs.drop 3) else none
      else if c = 'f' then
        if "alse".toList.isPrefixOf cs then some (.bool false, cs.drop 4) else none
      else if c = 'n' then
        if "ull".toList.isPrefixOf cs then some (.null, cs.drop 3) else none
      else if c = '-' || isDigitChar c then
        (parseJNumber (c :: cs)).map (fun qr => (.num qr.1, qr.2))
      else none

/-- Parse the members of a JSON object after the opening brace. -/
def parseJMembers :
    Nat → List Char → List (String × JsonVal) → Option (List (String × JsonVal) × List Char)
  | 0, _, _ => none
  | fuel + 1, l, acc =>
    match l.dropWhile jsonWs with
    | c :: cs =>
      if c = dquote then
        match parseJStringChars cs with
        | some (k, r1) =>
          match r1.dropWhile jsonWs with
          | ':' :: r2 =>
            match parseJValue fuel r2 with
            | some (v, r3) =>
              match r3.dropWhile jsonWs with
              | ',' :: r4 => parseJMembers fuel r4 (acc ++ [(String.mk k, v)])
              | '}' :: r4 => some (acc ++ [(String.mk k, v)], r4)
              | _ => none
            | none => none
          | _ => none
        | none => none
      else none
    | [] => none

/-- Parse the elements of a JSON array after the opening bracket. -/
def parseJElems : Nat → List Char → List JsonVal → Option (List JsonVal × List Char)
  | 0, _, _ => none
  | fuel + 1, l, acc =>
    match parseJValue fuel l with
    | some (v, r) =>
      match r.dropWhile jsonWs with
      | ',' :: r2 => parseJElems fuel r2 (acc ++ [v])
      | ']' :: r2 => some (acc ++ [v], r2)
      | _ => none
    | none => none

end

/-- `JSON.parse`: parse a complete JSON document; `none` models a thrown
`SyntaxError`.  The fuel bound `length + 2` is generous: every recursive
descent step consumes at least one input character. -/
def jsonParse (l : List Char) : Option JsonVal :=
  match parseJValue (l.length + 2) l with
  | some (v, rest) => if (rest.dropWhile jsonWs).isEmpty then some v else none
  | none => none

/-! ## `parseOrderAnalysis` (llm.ts lines 143–186) -/

/-- Case-sensitive substring search returning the first index. -/
def findSub (pat : List Char) : List Char → Option Nat
  | [] => if pat.isEmpty then some 0 else none
  | c :: cs =>
    if pat.isPrefixOf (c :: cs) then some 0 else (findSub pat cs).map (· + 1)

/-- Anchored attempt of the code-fence capture
`/```(?:json)?\s*([\s\S]*?)```/` at the head of `l`. -/
def codeBlockAttempt (l : List Char) : Option (List Char) :=
  if "```".toList.isPrefixOf l then
    let r1 := l.drop 3
    let r2 := if "json".toList.isPrefixOf r1 then r1.drop 4 else r1
    let r3 := r2.dropWhile isJsWs
    match findSub "```".toList r3 with
    | some k => some (r3.take k)
    | none => none
  else none

/-- Leftmost capture of the code-fence pattern (`response.match(...)`). -/
def codeBlockCapture : List Char → Option (List Char)
  | [] => none
  | c :: cs =>
    match codeBlockAttempt (c :: cs) with
    | some v => some v
    | none => codeBlockCapture cs

/-- The match of `/\x7b[\s\S]*\x7d/`: from the first opening brace through
the last closing brace at or after it. -/
def braceExtract (l : List Char) : Option (List Char) :=
  match l.findIdx? (· = Char.ofNat 123) with
  | some i =>
    let tailPart := l.drop i
    match tailPart.reverse.findIdx? (· = Char.ofNat 125) with
    | some jr => some (tailPart.take (tailPart.length - jr))
    | none => none
  | none => none

/-- The JSON candidate substring selected by `parseOrderAnalysis` before
`JSON.parse`: the trimmed code-fence capture when present (else the whole
response), then the brace-delimited match. -/
def jsonCandidate (l : List Char) : Option (List Char) :=
  let jsonStr :=
    match codeBlockCapture l with
    | some c => jsTrim c
    | none => l
  braceExtract jsonStr

/-- The parsed JSON value reaching the normalization step, `none` when the
response holds no parseable JSON object. -/
def toParsedJson (l : List Char) : Option JsonVal :=
  (jsonCandidate l).bind jsonParse

/-- Property lookup on a parsed value: `none` models `undefined`.  On
duplicate keys `JSON.parse` keeps the last occurrence. -/
def lookupLastField : List (String × JsonVal) → String → Option JsonVal
  | [], _ => none
  | (k', v) :: fs, k =>
    match lookupLastField fs k with
    | some w => some w
    | none => if k' = k then some v else none

/-- `v[k]` for a parsed JSON value (property access on a non-object
primitive yields `undefined`). -/
def objGet : JsonVal → String → Option JsonVal
  | .obj fs, k => lookupLastField fs k
  | _, _ => none

/-- JavaScript truthiness of a JSON value. -/
def jsTruthy : JsonVal → Bool
  | .null => false
  | .bool b => b
  | .num q => decide (q.m ≠ 0)
  | .str s => !s.isEmpty
  | .arr _ => true
  | .obj _ => true

/-- `x || d` on a possibly-undefined value. -/
def jsOrElse (v : Option JsonVal) (d : JsonVal) : JsonVal :=
  match v with
  | some w => if jsTruthy w then w else d
  | none => d

/-- `x ?? d` on a possibly-undefined value. -/
def jsNullish (v : Option JsonVal) (d : JsonVal) : JsonVal :=
  match v with
  | some .null => d
  | some w => w
  | none => d

/-- A normalized product entry.  `name` and `category` stay untyped JSON
values because the source normalizes them with `||`, which can let any
truthy value through. -/
structure ExtractedProduct where
  name : JsonVal
  price : Option Dec
  quantity : Dec
  isRecurring : Bool
  category : JsonVal
  suggestedFrequencyDays : Option Dec

/-- A normalized analysis.  `isOrderConfirmation`, `confidence`,
`retailer` and `orderNumber` stay untyped for the same reason. -/
structure OrderAnalysis where
  isOrderConfirmation : JsonVal
  confidence : JsonVal
  products : List ExtractedProduct
  retailer : JsonVal
  orderNumber : JsonVal

/-- `DEFAULT_RESULT` / the local `defaultResult` of `parseOrderAnalysis`. -/
def defaultAnalysis : OrderAnalysis :=
  { isOrderConfirmation := .bool false, confidence := .num (decimal 0 0),
    products := [], retailer := .null, orderNumber := .null }

/-- Normalization of one entry of `parsed.products` (llm.ts lines 170–177). -/
def buildProduct (p : JsonVal) : ExtractedProduct :=
  { name := jsOrElse (objGet p "name") (.str "Unknown Product"),
    price := match objGet p "price" with | some (.num q) => some q | _ => none,
    quantity := match objGet p "quantity" with | some (.num q) => q | _ => decimal 1 0,
    isRecurring := match objGet p "isRecurring" with | some (.bool b) => b | _ => false,
    category := jsOrElse (objGet p "category") .null,
    suggestedFrequencyDays :=
      match objGet p "suggestedFrequencyDays" with | some (.num q) => some q | _ => none }

/-- Is this value JSON `null`? -/
def isNullJson : JsonVal → Bool
  | .null => true
  | _ => false

/-- Normalization of the parsed top-level object (llm.ts lines 166–181).
A `null` entry inside `products` makes the property accesses of the `map`
callback throw; the surrounding `try/catch` then returns the default. -/
def buildAnalysis (v : JsonVal) : OrderAnalysis :=
  match objGet v "products" with
  | some (.arr xs) =>
    if xs.any isNullJson then defaultAnalysis
    else
      { isOrderConfirmation := jsNullish (objGet v "isOrderConfirmation") (.bool false),
        confidence := jsNullish (objGet v "confidence") (.num (decimal 0 0)),
        products := xs.map buildProduct,
        retailer := jsOrElse (objGet v "retailer") .null,
        orderNumber := jsOrElse (objGet v "orderNumber") .null }
  | _ =>
      { isOrderConfirmation := jsNullish (objGet v "isOrderConfirmation") (.bool false),
        confidence := jsNullish (objGet v "confidence") (.num (decimal 0 0)),
        products := [],
        retailer := jsOrElse (objGet v "retailer") .null,
        orderNumber := jsOrElse (objGet v "orderNumber") .null }

/-- `parseOrderAnalysis` (llm.ts lines 143–186). -/
def parseOrderAnalysis (response : String) : OrderAnalysis :=
  match toParsedJson response.toList with
  | none => defaultAnalysis
  | some v => buildAnalysis v

/-! ## `analyzeOrderWithHeuristics` (llm.ts lines 191–272) -/

/-- The fixed confirmation-phrase list (llm.ts lines 195–204). -/
def confirmationSignals : List (List Char) :=
  ["order confirmation".toList, "thank you for your order".toList,
   "order has been received".toList, "order number".toList, "receipt".toList,
   "purchase confirmation".toList, "order successfully placed".toList,
   ("we".toList ++ [apos] ++ "ll send you an email".toList)]

/-- Anchored `\bpat\b` attempt given the preceding character. -/
def wbAt (pat : List Char) (prev : Option Char) (s : List Char) : Bool :=
  prev.elim true (fun c => !isWordChar c) && ciPrefixAt pat s &&
    (s.drop pat.length).head?.elim true (fun c => !isWordChar c)

/-- Scan for `\bpat\b` keeping track of the preceding character. -/
def wbGo (pat : List Char) (prev : Option Char) : List Char → Bool
  | [] => false
  | c :: cs => wbAt pat prev (c :: cs) || wbGo pat (some c) cs

/-- Test for `/\bpat\b/i`. -/
def wordBoundedCi (pat : List Char) (l : List Char) : Bool := wbGo pat none l

/-- One entry of the retailer-pattern table. -/
structure RetailerPattern where
  name : String
  test : List Char → Bool

/-- The retailer-pattern table (llm.ts lines 215–224), in source order
(first match wins). -/
def retailerPatterns : List RetailerPattern := [
  ⟨"Amazon", fun l => containsCi "amazon".toList l || containsCi "amzn".toList l⟩,
  ⟨"eBay", wordBoundedCi "ebay".toList⟩,
  ⟨"Walmart", containsCi "walmart".toList⟩,
  ⟨"Target", containsCi "target".toList⟩,
  ⟨"Best Buy", fun l => containsCi "best buy".toList l || containsCi "bestbuy".toList l⟩,
  ⟨"Apple", wordBoundedCi "apple".toList⟩,
  ⟨"Nike", wordBoundedCi "nike".toList⟩,
  ⟨"Bunnings", containsCi "bunnings".toList⟩]

/-- `[A-Z0-9-]` under the `i` flag. -/
def isAlnumHyphen (c : Char) : Bool := isAsciiAlnum c || c = '-'

/-- Anchored attempt of `/order\s*[:#]?\s*([A-Z0-9-]{4,})/i`. -/
def orderNumAt (s : List Char) : Option (List Char) :=
  if ciPrefixAt "order".toList s then
    let r := skipWs (s.drop 5)
    let r2 := if r.head? = some ':' || r.head? = some '#' then r.drop 1 else r
    let run := (skipWs r2).takeWhile isAlnumHyphen
    if 4 ≤ run.length then some run else none
  else none

/-- Leftmost capture of the order-number pattern. -/
def orderNumCapture : List Char → Option (List Char)
  | [] => none
  | c :: cs =>
    match orderNumAt (c :: cs) with
    | some v => some v
    | none => orderNumCapture cs

/-- `pageContent.split(/\n|\r/)`. -/
def splitLines : List Char → List (List Char)
  | [] => [[]]
  | c :: cs =>
    let rest := splitLines cs
    if c = '\n' || c = '\r' then [] :: rest
    else
      match rest with
      | [] => [[c]]
      | r :: rs => (c :: r) :: rs

/-- Test for `/\d+\s*(x|pcs|items|qty)/i`. -/
def qtyMarkerPat : List Char → Bool :=
  existsPos (fun s =>
    let ds := s.takeWhile isDigitChar
    !ds.isEmpty &&
      (let r := skipWs (s.drop ds.length)
       ciPrefixAt "x".toList r || ciPrefixAt "pcs".toList r ||
       ciPrefixAt "items".toList r || ciPrefixAt "qty".toList r))

/-- The candidate-line filter of the heuristic product extraction
(llm.ts lines 248–251). -/
def lineIsProduct (line : List Char) : Bool :=
  decide (10 < line.length) && decide (line.length < 200) &&
    (containsStr ['$'] line || qtyMarkerPat line)

/-- Anchored attempt of `/\$(\d+\.?\d*)/` returning `parseFloat` of the
capture. -/
def priceCaptureAt (s : List Char) : Option Dec :=
  match s with
  | '$' :: r =>
    let ds := r.takeWhile isDigitChar
    if ds.isEmpty then none
    else
      let r2 := r.drop ds.length
      let fs := if r2.head? = some '.' then (r2.drop 1).takeWhile isDigitChar else []
      some ⟨(digitsVal ds : Int) * tenPow fs.length + (digitsVal fs : Int),
            -(fs.length : Int)⟩
  | _ => none

/-- Leftmost in-line price. -/
def priceCapture : List Char → Option Dec
  | [] => none
  | c :: cs =>
    match priceCaptureAt (c :: cs) with
    | some q => some q
    | none => priceCapture cs

/-- The product built from one candidate line (llm.ts lines 253–263). -/
def lineToProduct (line : List Char) : ExtractedProduct :=
  { name := .str (String.mk ((jsTrim line).take 50)),
    price := priceCapture line,
    quantity := decimal 1 0,
    isRecurring := false,
    category := .null,
    suggestedFrequencyDays := some (decimal 30 0) }

/-- `analyzeOrderWithHeuristics` (llm.ts lines 191–272). -/
def analyzeOrderWithHeuristics (pageContent : String) : OrderAnalysis :=
  let content := pageContent.toList
  let lowerContent := content.map Char.toLower
  if !(confirmationSignals.any (fun sig => containsStr sig lowerContent)) then
    defaultAnalysis
  else
    let retailer : JsonVal :=
      match retailerPatterns.find? (fun rp => rp.test content) with
      | some rp => .str rp.name
      | none => .null
    let orderNumber : JsonVal :=
      match orderNumCapture content with
      | some run => jsOrElse (some (.str (String.mk run))) .null
      | none => .null
    let productLines := (splitLines content).filter lineIsProduct
    { isOrderConfirmation := .bool true,
      confidence := .num (decimal 6 (-1)),
      products := (productLines.take 5).map lineToProduct,
      retailer := retailer,
      orderNumber := orderNumber }

/-! ## Specification-side definitions

The definitions below restate, in the vocabulary of the specification
(filters, maps, rational maxima and sums), the quantities the classifiers
are claimed to compute; the theorems then relate them to the embedded
code.  The concrete inputs of the scenario claims are also fixed here. -/

/-- Does the URL match an entry of the exclude table? -/
def urlExcluded (url : String) : Bool :=
  EXCLUDE_PATTERNS.any (fun t => t url.toList)

/-- The confirmation-table entries matching the URL. -/
def matchedConfirmations (url : String) : List UrlPattern :=
  ORDER_CONFIRMATION_PATTERNS.filter (fun p => p.test url.toList)

/-- The details-table entries matching the URL. -/
def matchedDetails (url : String) : List UrlPattern :=
  ORDER_DETAILS_PATTERNS.filter (fun p => p.test url.toList)

/-- The title-table entries matching the page title. -/
def matchedTitle (page : PageInput) : List UrlPattern :=
  TITLE_CONFIRMATION_PATTERNS.filter (fun p => p.test page.title.toList)

/-- The content-table entries matching the page body text. -/
def matchedContent (page : PageInput) : List UrlPattern :=
  CONTENT_CONFIRMATION_PATTERNS.filter (fun p => p.test page.bodyText.toList)

/-- The triggers contributed by the URL layer of the page classifier. -/
def urlLayerTriggers (page : PageInput) : List String :=
  if (isLikelyOrderConfirmationUrl page.url).isLikelyOrderConfirmation then
    (isLikelyOrderConfirmationUrl page.url).triggers
  else []

/-- The confidence contributed by the URL layer of the page classifier. -/
def urlLayerConfidence (page : PageInput) : ℚ :=
  if (isLikelyOrderConfirmationUrl page.url).isLikelyOrderConfirmation then
    (isLikelyOrderConfirmationUrl page.url).confidence.toRat
  else 0

/-- The summed confidence of the matching title patterns. -/
def titleSum (page : PageInput) : ℚ :=
  ((matchedTitle page).map (fun p => p.confidence.toRat)).sum

/-- The summed confidence of the matching content patterns. -/
def contentSum (page : PageInput) : ℚ :=
  ((matchedContent page).map (fun p => p.confidence.toRat)).sum

/-- All triggers collected by the page classifier, in collection order. -/
def pageTriggers (page : PageInput) : List String :=
  urlLayerTriggers page ++ (matchedTitle page).map (·.trigger) ++
    (matchedContent page).map (·.trigger)

/-- Did any collected trigger come from the URL or title layer? -/
def hasUrlOrTitleTrigger (trs : List String) : Bool :=
  trs.any (fun t =>
    "url-".toList.isPrefixOf t.toList || "title-".toList.isPrefixOf t.toList ||
      "checkout-".toList.isPrefixOf t.toList)

/-- The price sanity bound claimed for parsed products. -/
def priceInBounds (p : ExtractedProduct) : Bool :=
  match p.price with
  | none => true
  | some q => Dec.lt (decimal 0 0) q && Dec.lt q (decimal 10000 0)

/-- Does some fixed confirmation phrase occur in the lower-cased text? -/
def hasConfirmationSignal (t : String) : Bool :=
  confirmationSignals.any (fun sig => containsStr sig (t.toList.map Char.toLower))

/-- The Amazon thank-you URL of Scenario A (also the input of the repo's
own `detects Amazon order confirmation URL` test). -/
def amazonThankYouUrl : String :=
  "https://www.amazon.com/gp/buy/thankyou/handlers/display.html"

/-- A URL matching both the exclude table (`/\/cart\?/`) and the details
table (`orderId=`). -/
def cartOrderIdUrl : String := "https://shop.example.com/cart?orderId=5"

/-- The page of Scenario F: no URL or title signal, body text matching
only the `thank you for your order` content pattern (confidence 0.65). -/
def scenarioFPage : PageInput :=
  ⟨"https://example.com/x", "x", "Thank you for your order"⟩

/-- The heuristic-extractor input of Scenario C. -/
def scenarioCText : String :=
  "Order Confirmation\nThank you for your order!\nOrder #12345"

/-- A 100,000-character body (Scenario E). -/
def hundredKBody : String := String.mk (List.replicate 100000 'a')

/-- An input whose double-encoded entities decode, in a single pass, into
a live `<script>` element — after script removal has already run. -/
def doubleDecodeInput : String :=
  "x&amp;lt;script&amp;gt;evil()&amp;lt;/script&amp;gt;y"

/-- An LLM response carrying a product price far outside `(0, 10000)`. -/
def responseWithHugePrice : String :=
  "\x7b\"products\":[\x7b\"name\":\"X\",\"price\":50000\x7d]\x7d"

/-- An LLM response carrying eleven products with identical names. -/
def responseWithElevenDuplicates : String :=
  "\x7b\"products\":[\x7b\"name\":\"A\"\x7d,\x7b\"name\":\"A\"\x7d,\x7b\"name\":\"A\"\x7d,\x7b\"name\":\"A\"\x7d,\x7b\"name\":\"A\"\x7d,\x7b\"name\":\"A\"\x7d,\x7b\"name\":\"A\"\x7d,\x7b\"name\":\"A\"\x7d,\x7b\"name\":\"A\"\x7d,\x7b\"name\":\"A\"\x7d,\x7b\"name\":\"A\"\x7d]\x7d"

/-- Characters on which every sanitizer pass is inert: not a tag or
entity delimiter and not whitespace. -/
def plainChar (c : Char) : Bool :=
  !(c = '<' || c = '>' || c = '&' || isJsWs c)

/-! ## Correctness of the decimal arithmetic -/

theorem tenPow_cast (n : Nat) : ((tenPow n : Int) : ℚ) = (10 : ℚ) ^ n := by
  induction n with
  | zero => simp [tenPow]
  | succ k ih =>
    simp only [tenPow, pow_succ]
    push_cast
    rw [ih]
    ring

theorem intMin_le_left (a b : Int) : intMin a b ≤ a := by
  unfold intMin; split <;> omega

theorem intMin_le_right (a b : Int) : intMin a b ≤ b := by
  unfold intMin; split <;> omega

theorem scaled_cast (a : Dec) (emin : Int) (h : emin ≤ a.e) :
    ((a.scaled emin : Int) : ℚ) = a.toRat * (10 : ℚ) ^ (-emin) := by
  unfold Dec.scaled Dec.toRat
  push_cast [tenPow_cast]
  rw [← zpow_natCast (10 : ℚ) (a.e - emin).toNat, Int.toNat_of_nonneg (by omega)]
  rw [zpow_sub₀ (by norm_num : (10 : ℚ) ≠ 0), zpow_neg, div_eq_mul_inv]
  ring

theorem Dec.le_iff (a b : Dec) : Dec.le a b = true ↔ a.toRat ≤ b.toRat := by
  unfold Dec.le
  rw [decide_eq_true_iff]
  have h10 : (0 : ℚ) < (10 : ℚ) ^ (-(intMin a.e b.e)) := zpow_pos (by norm_num) _
  constructor
  · intro h
    have hc : ((a.scaled (intMin a.e b.e) : Int) : ℚ) ≤
        ((b.scaled (intMin a.e b.e) : Int) : ℚ) := by exact_mod_cast h
    rw [scaled_cast a _ (intMin_le_left a.e b.e),
        scaled_cast b _ (intMin_le_right a.e b.e)] at hc
    exact le_of_mul_le_mul_right hc h10
  · intro h
    have hc : a.toRat * (10 : ℚ) ^ (-(intMin a.e b.e)) ≤
        b.toRat * (10 : ℚ) ^ (-(intMin a.e b.e)) :=
      mul_le_mul_of_nonneg_right h (le_of_lt h10)
    rw [← scaled_cast a _ (intMin_le_left a.e b.e),
        ← scaled_cast b _ (intMin_le_right a.e b.e)] at hc
    exact_mod_cast hc

theorem Dec.le_decide (a b : Dec) : Dec.le a b = decide (a.toRat ≤ b.toRat) := by
  by_cases h : a.toRat ≤ b.toRat
  · simp [h, Dec.le_iff]
  · simp only [h, decide_False]
    rw [← Bool.not_eq_true]
    simp [Dec.le_iff, h]

theorem Dec.lt_iff (a b : Dec) : Dec.lt a b = true ↔ a.toRat < b.toRat := by
  unfold Dec.lt
  rw [decide_eq_true_iff]
  have h10 : (0 : ℚ) < (10 : ℚ) ^ (-(intMin a.e b.e)) := zpow_pos (by norm_num) _
  constructor
  · intro h
    have hc : ((a.scaled (intMin a.e b.e) : Int) : ℚ) <
        ((b.scaled (intMin a.e b.e) : Int) : ℚ) := by exact_mod_cast h
    rw [scaled_cast a _ (intMin_le_left a.e b.e),
        scaled_cast b _ (intMin_le_right a.e b.e)] at hc
    exact lt_of_mul_lt_mul_right hc (le_of_lt h10)
  · intro h
    have hc : a.toRat * (10 : ℚ) ^ (-(intMin a.e b.e)) <
        b.toRat * (10 : ℚ) ^ (-(intMin a.e b.e)) :=
      mul_lt_mul_of_pos_right h h10
    rw [← scaled_cast a _ (intMin_le_left a.e b.e),
        ← scaled_cast b _ (intMin_le_right a.e b.e)] at hc
    exact_mod_cast hc

theorem Dec.add_toRat (a b : Dec) : (Dec.add a b).toRat = a.toRat + b.toRat := by
  unfold Dec.add
  have hone : (10 : ℚ) ^ (-(intMin a.e b.e)) * (10 : ℚ) ^ (intMin a.e b.e) = 1 := by
    rw [← zpow_add₀ (by norm_num : (10 : ℚ) ≠ 0)]
    simp
  have : Dec.toRat ⟨a.scaled (intMin a.e b.e) + b.scaled (intMin a.e b.e), intMin a.e b.e⟩ =
      ((a.scaled (intMin a.e b.e) : ℚ) + (b.scaled (intMin a.e b.e) : ℚ)) *
        (10 : ℚ) ^ (intMin a.e b.e) := by
    unfold Dec.toRat
    push_cast
    ring
  rw [this, scaled_cast a _ (intMin_le_left a.e b.e),
      scaled_cast b _ (intMin_le_right a.e b.e)]
  calc (a.toRat * (10:ℚ) ^ (-(intMin a.e b.e)) + b.toRat * (10:ℚ) ^ (-(intMin a.e b.e))) *
        (10:ℚ) ^ (intMin a.e b.e)
      = (a.toRat + b.toRat) * ((10:ℚ) ^ (-(intMin a.e b.e)) * (10:ℚ) ^ (intMin a.e b.e)) := by
        ring
    _ = a.toRat + b.toRat := by rw [hone]; ring

theorem Dec.max_toRat (a b : Dec) : (Dec.max a b).toRat = Max.max a.toRat b.toRat := by
  unfold Dec.max
  by_cases h : Dec.le a b = true
  · rw [if_pos h, max_eq_right ((Dec.le_iff a b).mp h)]
  · have hba : b.toRat < a.toRat := by
      by_contra hc
      exact h ((Dec.le_iff a b).mpr (le_of_not_lt hc))
    rw [if_neg h, max_eq_left (le_of_lt hba)]

theorem Dec.min_toRat (a b : Dec) : (Dec.min a b).toRat = Min.min a.toRat b.toRat := by
  unfold Dec.min
  by_cases h : Dec.le a b = true
  · rw [if_pos h, min_eq_left ((Dec.le_iff a b).mp h)]
  · have hba : b.toRat < a.toRat := by
      by_contra hc
      exact h ((Dec.le_iff a b).mpr (le_of_not_lt hc))
    rw [if_neg h, min_eq_right (le_of_lt hba)]

theorem decimal_zero_toRat : (decimal 0 0).toRat = 0 := by
  simp [decimal, Dec.toRat]

theorem decimal_one_toRat : (decimal 1 0).toRat = 1 := by
  simp [decimal, Dec.toRat]

theorem decimal_6_toRat : (decimal 6 (-1)).toRat = 0.6 := by
  simp only [decimal, Dec.toRat]
  norm_num

theorem decimal_7_toRat : (decimal 7 (-1)).toRat = 0.7 := by
  simp only [decimal, Dec.toRat]
  norm_num

theorem decimal_4_toRat : (decimal 4 (-1)).toRat = 0.4 := by
  simp only [decimal, Dec.toRat]
  norm_num

theorem decimal_65_toRat : (decimal 65 (-2)).toRat = 0.65 := by
  simp only [decimal, Dec.toRat]
  norm_num

/-! ## Fold lemmas relating decimal accumulation to rational arithmetic -/

theorem foldl_decMax_toRat (l : List Dec) (acc : Dec) :
    (l.foldl Dec.max acc).toRat = (l.map Dec.toRat).foldl Max.max acc.toRat := by
  induction l generalizing acc with
  | nil => rfl
  | cons a as ih =>
    simp only [List.foldl_cons, List.map_cons]
    rw [ih, Dec.max_toRat]

theorem foldl_decAdd_toRat (l : List Dec) (acc : Dec) :
    (l.foldl Dec.add acc).toRat = acc.toRat + (l.map Dec.toRat).sum := by
  induction l generalizing acc with
  | nil => simp
  | cons a as ih =>
    simp only [List.foldl_cons, List.map_cons, List.sum_cons]
    rw [ih, Dec.add_toRat]
    ring

theorem foldl_max_eq_foldr (l : List ℚ) (q : ℚ) (hq : 0 ≤ q) :
    l.foldl Max.max q = Max.max q (l.foldr Max.max 0) := by
  induction l generalizing q with
  | nil => simpa using (max_eq_left hq).symm
  | cons a as ih =>
    simp only [List.foldl_cons, List.foldr_cons]
    rw [ih (Max.max q a) (le_trans hq (le_max_left q a)), max_assoc]

theorem foldr_max_nonneg (l : List ℚ) : 0 ≤ l.foldr Max.max 0 := by
  induction l with
  | nil => simp
  | cons a as ih => exact le_trans ih (le_max_right a _)

/-! ## The scan loops as filter/map folds -/

theorem patternScan_eq (s : List Char) (ps : List UrlPattern) (trs : List String) (mc : Dec) :
    patternScan s ps (trs, mc) =
      (trs ++ (ps.filter (fun p => p.test s)).map (·.trigger),
       ((ps.filter (fun p => p.test s)).map (·.confidence)).foldl Dec.max mc) := by
  induction ps generalizing trs mc with
  | nil => simp [patternScan]
  | cons p ps ih =>
    by_cases h : p.test s
    · simp [patternScan, h, ih, List.filter_cons]
    · simp [patternScan, h, ih, List.filter_cons]

theorem addScan_eq (s : List Char) (ps : List UrlPattern) (trs : List String) (tc : Dec) :
    addScan s ps (trs, tc) =
      (trs ++ (ps.filter (fun p => p.test s)).map (·.trigger),
       ((ps.filter (fun p => p.test s)).map (·.confidence)).foldl Dec.add tc) := by
  induction ps generalizing trs tc with
  | nil => simp [addScan]
  | cons p ps ih =>
    by_cases h : p.test s
    · simp [addScan, h, ih, List.filter_cons]
    · simp [addScan, h, ih, List.filter_cons]

/-- The URL classifier, written as the specification describes it. -/
theorem urlClassifier_cases (url : String) :
    isLikelyOrderConfirmationUrl url =
      if urlExcluded url then ⟨false, decimal 0 0, []⟩
      else
        ⟨Dec.le (decimal 6 (-1))
            (((matchedConfirmations url).map (·.confidence)).foldl Dec.max (decimal 0 0)),
          ((matchedConfirmations url).map (·.confidence)).foldl Dec.max (decimal 0 0),
          (matchedConfirmations url).map (·.trigger)⟩ := by
  unfold isLikelyOrderConfirmationUrl urlExcluded matchedConfirmations
  split
  · rfl
  · rw [patternScan_eq]
    simp

/-- The order-details classifier, written the same way. -/
theorem detailsClassifier_cases (url : String) :
    isOrderDetailsPage url =
      ⟨Dec.le (decimal 7 (-1))
          (((matchedDetails url).map (·.confidence)).foldl Dec.max (decimal 0 0)),
        ((matchedDetails url).map (·.confidence)).foldl Dec.max (decimal 0 0),
        (matchedDetails url).map (·.trigger)⟩ := by
  unfold isOrderDetailsPage matchedDetails
  rw [patternScan_eq]
  simp

/-- The maximum confidence of a matched-pattern list, as a rational. -/
theorem foldl_decMax_zero_toRat (l : List UrlPattern) :
    ((l.map (·.confidence)).foldl Dec.max (decimal 0 0)).toRat =
      (l.map (fun p => p.confidence.toRat)).foldr Max.max 0 := by
  rw [foldl_decMax_toRat, List.map_map, decimal_zero_toRat,
    foldl_max_eq_foldr _ 0 le_rfl]
  have heq : (Dec.toRat ∘ fun p : UrlPattern => p.confidence) =
      fun p : UrlPattern => p.confidence.toRat := rfl
  rw [heq]
  exact max_eq_right (foldr_max_nonneg _)

/-- C1: for every URL, the URL classifier `isLikelyOrderConfirmationUrl`
returns `{false, 0, []}` whenever an exclude-table pattern matches, and
otherwise its confidence is the maximum (not the sum) of the confidences
of the matching confirmation patterns (0 when none match), its triggers
are exactly the triggers of the matching patterns, and the decision bit is
exactly `confidence ≥ 0.6`. -/
theorem urlClassifier_exclusion_max_threshold (url : String) :
    (isLikelyOrderConfirmationUrl url).triggers =
      (if urlExcluded url then [] else (matchedConfirmations url).map (·.trigger)) ∧
    (isLikelyOrderConfirmationUrl url).confidence.toRat =
      (if urlExcluded url then 0
       else ((matchedConfirmations url).map (fun p => p.confidence.toRat)).foldr Max.max 0) ∧
    (isLikelyOrderConfirmationUrl url).isLikelyOrderConfirmation =
      decide ((0.6 : ℚ) ≤ (isLikelyOrderConfirmationUrl url).confidence.toRat) := by
  by_cases hex : urlExcluded url = true
  · refine ⟨?_, ?_, ?_⟩
    · simp [urlClassifier_cases, hex]
    · simp [urlClassifier_cases, hex, decimal_zero_toRat]
    · have hno : ¬ ((0.6 : ℚ) ≤ (decimal 0 0).toRat) := by
        rw [decimal_zero_toRat]; norm_num
      simp [urlClassifier_cases, hex, hno]
  · simp only [Bool.not_eq_true] at hex
    refine ⟨?_, ?_, ?_⟩
    · simp [urlClassifier_cases, hex]
    · simp only [urlClassifier_cases, hex, Bool.false_eq_true, if_false]
      exact foldl_decMax_zero_toRat _
    · simp only [urlClassifier_cases, hex, Bool.false_eq_true, if_false]
      rw [Dec.le_decide, decimal_6_toRat]

/-- C8 (amended): `isOrderDetailsPage` scans the details pattern table the
same way the confirmation classifier scans its table — confidence is the
maximum over the matching details patterns, triggers are their triggers,
and the decision bit is exactly `confidence ≥ 0.7` — but, contrary to the
original claim, it consults no exclude list at all. -/
theorem detailsClassifier_max_threshold_no_exclusion (url : String) :
    (isOrderDetailsPage url).triggers = (matchedDetails url).map (·.trigger) ∧
    (isOrderDetailsPage url).confidence.toRat =
      ((matchedDetails url).map (fun p => p.confidence.toRat)).foldr Max.max 0 ∧
    (isOrderDetailsPage url).isLikelyOrderConfirmation =
      decide ((0.7 : ℚ) ≤ (isOrderDetailsPage url).confidence.toRat) := by
  rw [detailsClassifier_cases]
  exact ⟨rfl, foldl_decMax_zero_toRat _, by rw [Dec.le_decide, decimal_7_toRat]⟩

set_option maxRecDepth 10000 in
/-- C8 (counterexample): the URL `https://shop.example.com/cart?orderId=5`
matches the exclude table (`/\/cart\?/`), yet `isOrderDetailsPage` does not
short-circuit to `{false, 0, []}` — it classifies the URL as an order
details page with confidence 0.85 via the `orderId=` pattern. -/
theorem detailsClassifier_exclusion_counterexample :
    urlExcluded cartOrderIdUrl = true ∧
    isOrderDetailsPage cartOrderIdUrl = ⟨true, decimal 85 (-2), ["order-id-param"]⟩ ∧
    isOrderDetailsPage cartOrderIdUrl ≠ ⟨false, decimal 0 0, []⟩ := by
  refine ⟨by decide, by decide, by decide⟩

theorem hasUrlOrTitle_eq (trs : List String) :
    (trs.any (fun t =>
      "url-".toList.isPrefixOf t.toList || "title-".toList.isPrefixOf t.toList ||
        "checkout-".toList.isPrefixOf t.toList)) = hasUrlOrTitleTrigger trs := rfl

theorem decide_pos_len_eq (l : List String) :
    decide (0 < l.length) = decide (l ≠ []) := by
  cases l <;> simp

set_option maxRecDepth 10000 in
/-- C2: the page classifier `isLikelyOrderConfirmationPage` adds the URL
layer's confidence (only when the URL classifier is likely) to the
confidences of the matching title and content patterns, caps the total at
1.0, and classifies a page as likely exactly when at least one trigger
fired and the capped confidence meets the signal-dependent threshold —
0.4 when a URL- or title-layer trigger is present, 0.7 when only
content-layer triggers fired.  On Scenario F's content-only page the total
is 0.65 and the classification is `false` (0.65 < 0.7); under the
threshold rule the same confidence with a URL-layer trigger would pass,
since 0.65 ≥ 0.4. -/
theorem pageClassifier_sum_cap_threshold :
    (∀ page : PageInput,
      (isLikelyOrderConfirmationPage page).triggers = pageTriggers page ∧
      (isLikelyOrderConfirmationPage page).confidence.toRat =
        Min.min (urlLayerConfidence page + titleSum page + contentSum page) 1 ∧
      (isLikelyOrderConfirmationPage page).isLikelyOrderConfirmation =
        (decide ((if hasUrlOrTitleTrigger (pageTriggers page) = true then (0.4 : ℚ) else 0.7) ≤
            (isLikelyOrderConfirmationPage page).confidence.toRat) &&
          decide ((isLikelyOrderConfirmationPage page).triggers ≠ []))) ∧
    ((isLikelyOrderConfirmationPage scenarioFPage).isLikelyOrderConfirmation = false ∧
      (isLikelyOrderConfirmationPage scenarioFPage).confidence.toRat = 0.65 ∧
      (isLikelyOrderConfirmationPage scenarioFPage).triggers = ["content-thank-you"] ∧
      hasUrlOrTitleTrigger ["content-thank-you"] = false) := by
  constructor
  · intro page
    by_cases hurl : (isLikelyOrderConfirmationUrl page.url).isLikelyOrderConfirmation = true
    · simp only [isLikelyOrderConfirmationPage, hurl, if_true]
      rw [addScan_eq, addScan_eq, hasUrlOrTitle_eq]
      simp only [pageTriggers, urlLayerTriggers, urlLayerConfidence, hurl, if_true,
        matchedTitle, matchedContent, titleSum, contentSum, List.append_assoc]
      refine ⟨trivial, ?_, ?_⟩
      · rw [Dec.min_toRat, foldl_decAdd_toRat, foldl_decAdd_toRat, decimal_one_toRat]
        simp only [List.map_map]
        rfl
      · by_cases hth : hasUrlOrTitleTrigger
            ((isLikelyOrderConfirmationUrl page.url).triggers ++
              ((TITLE_CONFIRMATION_PATTERNS.filter
                  (fun p => p.test page.title.toList)).map (·.trigger) ++
                (CONTENT_CONFIRMATION_PATTERNS.filter
                  (fun p => p.test page.bodyText.toList)).map (·.trigger))) = true
        · simp only [hth, if_true]
          rw [Dec.le_decide, decimal_4_toRat, decide_pos_len_eq]
        · simp only [Bool.not_eq_true] at hth
          simp only [hth, Bool.false_eq_true, if_false]
          rw [Dec.le_decide, decimal_7_toRat, decide_pos_len_eq]
    · simp only [Bool.not_eq_true] at hurl
      simp only [isLikelyOrderConfirmationPage, hurl, Bool.false_eq_true, if_false]
      rw [addScan_eq, addScan_eq, hasUrlOrTitle_eq]
      simp only [pageTriggers, urlLayerTriggers, urlLayerConfidence, hurl,
        Bool.false_eq_true, if_false, matchedTitle, matchedContent, titleSum, contentSum,
        List.append_assoc, List.nil_append]
      refine ⟨trivial, ?_, ?_⟩
      · rw [Dec.min_toRat, foldl_decAdd_toRat, foldl_decAdd_toRat,
          decimal_one_toRat, decimal_zero_toRat]
        simp only [List.map_map]
        rfl
      · by_cases hth : hasUrlOrTitleTrigger
            (((TITLE_CONFIRMATION_PATTERNS.filter
                (fun p => p.test page.title.toList)).map (·.trigger) ++
              (CONTENT_CONFIRMATION_PATTERNS.filter
                (fun p => p.test page.bodyText.toList)).map (·.trigger))) = true
        · simp only [hth, if_true]
          rw [Dec.le_decide, decimal_4_toRat, decide_pos_len_eq]
        · simp only [Bool.not_eq_true] at hth
          simp only [hth, Bool.false_eq_true, if_false]
          rw [Dec.le_decide, decimal_7_toRat, decide_pos_len_eq]
  · have hF : isLikelyOrderConfirmationPage scenarioFPage =
        ⟨false, decimal 65 (-2), ["content-thank-you"]⟩ := by decide
    refine ⟨by rw [hF], by rw [hF]; exact decimal_65_toRat, by rw [hF], by decide⟩

set_option maxRecDepth 10000 in
/-- C6 (code bug): the URL classifier returns `{false, 0, []}` on the
Amazon thank-you URL `.../gp/buy/thankyou/handlers/display.html`, although
the claim — and the repository's own detector test, which expects the
trigger `amazon-thankyou` — requires it to be likely with confidence
≥ 0.9; no pattern with that trigger exists in the confirmation table. -/
theorem amazonThankYou_not_detected :
    isLikelyOrderConfirmationUrl amazonThankYouUrl = ⟨false, decimal 0 0, []⟩ ∧
    ((ORDER_CONFIRMATION_PATTERNS.map (·.trigger)).contains "amazon-thankyou") = false := by
  refine ⟨by decide, by decide⟩

/-! ## Identity of the sanitizer passes on plain text -/

theorem scanRewriteF_id (rule : List Char → Option (List Char × Nat)) :
    ∀ (fuel : Nat) (l : List Char), l.length < fuel →
      (∀ i, rule (l.drop i) = none) → scanRewriteF rule fuel l = l := by
  intro fuel
  induction fuel with
  | zero => intro l h _; exact absurd h (Nat.not_lt_zero _)
  | succ n ih =>
    intro l hl hr
    cases l with
    | nil => rfl
    | cons c cs =>
      have h0 : rule (c :: cs) = none := by simpa using hr 0
      simp only [scanRewriteF, h0]
      congr 1
      refine ih cs ?_ (fun i => ?_)
      · simp only [List.length_cons] at hl
        omega
      · have := hr (i + 1)
        simpa [List.drop_succ_cons] using this

theorem scanRewrite_id (rule : List Char → Option (List Char × Nat)) (l : List Char)
    (hr : ∀ i, rule (l.drop i) = none) : scanRewrite rule l = l :=
  scanRewriteF_id rule (l.length + 1) l (Nat.lt_succ_self _) hr

theorem rule_none_all_drops (rule : List Char → Option (List Char × Nat))
    (hnil : rule [] = none)
    (hcons : ∀ c cs, plainChar c = true → rule (c :: cs) = none)
    (l : List Char) (hl : ∀ c ∈ l, plainChar c = true) :
    ∀ i, rule (l.drop i) = none := by
  intro i
  cases hd : l.drop i with
  | nil => exact hnil
  | cons c cs =>
    have hc : c ∈ l := List.drop_subset i l (hd ▸ List.mem_cons_self c cs)
    exact hcons c cs (hl c hc)

theorem plainChar_spec (c : Char) (h : plainChar c = true) :
    c ≠ '<' ∧ c ≠ '>' ∧ c ≠ '&' ∧ isJsWs c = false := by
  simp only [plainChar, Bool.not_eq_true', Bool.or_eq_false_iff,
    decide_eq_false_iff_not] at h
  exact ⟨h.1.1.1, h.1.1.2, h.1.2, h.2⟩

theorem tagBlockRule_none_plain (tag : List Char) (c : Char) (cs : List Char)
    (h : plainChar c = true) : tagBlockRule tag (c :: cs) = none := by
  simp [tagBlockRule, (plainChar_spec c h).1]

theorem selfCloseRule_none_plain (tag : List Char) (c : Char) (cs : List Char)
    (h : plainChar c = true) : selfCloseRule tag (c :: cs) = none := by
  simp [selfCloseRule, (plainChar_spec c h).1]

theorem commentRule_none_plain (c : Char) (cs : List Char)
    (h : plainChar c = true) : commentRule (c :: cs) = none := by
  simp [commentRule, (plainChar_spec c h).1]

theorem noiseRule_none_plain (c : Char) (cs : List Char)
    (h : plainChar c = true) : noiseRule (c :: cs) = none := by
  simp [noiseRule, (plainChar_spec c h).1]

theorem simplifyTagRule_none_plain (c : Char) (cs : List Char)
    (h : plainChar c = true) : simplifyTagRule (c :: cs) = none := by
  simp [simplifyTagRule, (plainChar_spec c h).1]

theorem stripTagsRule_none_plain (c : Char) (cs : List Char)
    (h : plainChar c = true) : stripTagsRule (c :: cs) = none := by
  simp [stripTagsRule, (plainChar_spec c h).1]

theorem emptyTagRule_none_plain (c : Char) (cs : List Char)
    (h : plainChar c = true) : emptyTagRule (c :: cs) = none := by
  simp [emptyTagRule, (plainChar_spec c h).1]

theorem gtWsLtRule_none_plain (c : Char) (cs : List Char)
    (h : plainChar c = true) : gtWsLtRule (c :: cs) = none := by
  simp [gtWsLtRule, (plainChar_spec c h).2.1]

theorem gtWsRule_none_plain (c : Char) (cs : List Char)
    (h : plainChar c = true) : gtWsRule (c :: cs) = none := by
  simp [gtWsRule, (plainChar_spec c h).2.1]

theorem collapseWsRule_none_plain (c : Char) (cs : List Char)
    (h : plainChar c = true) : collapseWsRule (c :: cs) = none := by
  simp [collapseWsRule, (plainChar_spec c h).2.2.2]

theorem wsLtRule_none_plain (c : Char) (cs : List Char)
    (h : plainChar c = true) : wsLtRule (c :: cs) = none := by
  simp [wsLtRule, (plainChar_spec c h).2.2.2]

theorem litRule_none_amp (pat rep : List Char) (hp : pat.head? = some '&')
    (c : Char) (cs : List Char) (h : plainChar c = true) :
    litRule pat rep (c :: cs) = none := by
  cases pat with
  | nil => simp at hp
  | cons p ps =>
    have hpamp : p = '&' := by simpa using hp
    subst hpamp
    have hne : ('&' : Char) ≠ c := Ne.symm (plainChar_spec c h).2.2.1
    simp [litRule, List.isPrefixOf, hne]

theorem litRule_none_nil (pat rep : List Char) (hp : pat.head? = some '&') :
    litRule pat rep [] = none := by
  cases pat with
  | nil => simp at hp
  | cons p ps => simp [litRule, List.isPrefixOf]

theorem replaceAllStr_id_amp (pat rep : List Char) (hp : pat.head? = some '&')
    (l : List Char) (hl : ∀ c ∈ l, plainChar c = true) :
    replaceAllStr pat rep l = l :=
  scanRewrite_id _ l
    (rule_none_all_drops _ (litRule_none_nil pat rep hp) (litRule_none_amp pat rep hp) l hl)

theorem sanitizedContent_plain (l : List Char) (hl : ∀ c ∈ l, plainChar c = true) :
    sanitizedContent l = l := by
  unfold sanitizedContent decodeEntities
  rw [scanRewrite_id _ l (rule_none_all_drops _ rfl (tagBlockRule_none_plain _) l hl),
      scanRewrite_id _ l (rule_none_all_drops _ rfl (tagBlockRule_none_plain _) l hl),
      scanRewrite_id _ l (rule_none_all_drops _ rfl (tagBlockRule_none_plain _) l hl),
      scanRewrite_id _ l (rule_none_all_drops _ rfl (tagBlockRule_none_plain _) l hl),
      scanRewrite_id _ l (rule_none_all_drops _ rfl (selfCloseRule_none_plain _) l hl),
      scanRewrite_id _ l (rule_none_all_drops _ rfl (selfCloseRule_none_plain _) l hl),
      scanRewrite_id _ l (rule_none_all_drops _ rfl commentRule_none_plain l hl),
      scanRewrite_id _ l (rule_none_all_drops _ rfl noiseRule_none_plain l hl),
      scanRewrite_id _ l (rule_none_all_drops _ rfl simplifyTagRule_none_plain l hl),
      replaceAllStr_id_amp "&nbsp;".toList [' '] rfl l hl,
      replaceAllStr_id_amp "&amp;".toList ['&'] rfl l hl,
      replaceAllStr_id_amp "&lt;".toList ['<'] rfl l hl,
      replaceAllStr_id_amp "&gt;".toList ['>'] rfl l hl,
      replaceAllStr_id_amp "&quot;".toList [dquote] rfl l hl,
      replaceAllStr_id_amp "&#39;".toList [apos] rfl l hl]

theorem dropWhile_eq_self_of_false (p : Char → Bool) (l : List Char)
    (h : ∀ c ∈ l, p c = false) : l.dropWhile p = l := by
  cases l with
  | nil => rfl
  | cons c cs =>
    rw [List.dropWhile_cons]
    simp [h c (List.mem_cons_self c cs)]

theorem jsTrim_plain (l : List Char) (h : ∀ c ∈ l, isJsWs c = false) :
    jsTrim l = l := by
  unfold jsTrim
  rw [dropWhile_eq_self_of_false _ _ h,
      dropWhile_eq_self_of_false _ _ (fun c hc => h c (List.mem_reverse.mp hc))]
  exact List.reverse_reverse l

theorem textProjection_plain (l : List Char) (hl : ∀ c ∈ l, plainChar c = true) :
    textProjection l = l := by
  unfold textProjection
  rw [scanRewrite_id _ l (rule_none_all_drops _ rfl stripTagsRule_none_plain l hl),
      scanRewrite_id _ l (rule_none_all_drops _ rfl collapseWsRule_none_plain l hl)]
  exact jsTrim_plain l (fun c hc => (plainChar_spec c (hl c hc)).2.2.2)

theorem htmlProjection_plain (l : List Char) (hl : ∀ c ∈ l, plainChar c = true) :
    htmlProjection l = l := by
  unfold htmlProjection
  rw [scanRewrite_id _ l (rule_none_all_drops _ rfl emptyTagRule_none_plain l hl),
      scanRewrite_id _ l (rule_none_all_drops _ rfl collapseWsRule_none_plain l hl),
      scanRewrite_id _ l (rule_none_all_drops _ rfl gtWsLtRule_none_plain l hl),
      scanRewrite_id _ l (rule_none_all_drops _ rfl gtWsRule_none_plain l hl),
      scanRewrite_id _ l (rule_none_all_drops _ rfl wsLtRule_none_plain l hl)]
  exact jsTrim_plain l (fun c hc => (plainChar_spec c (hl c hc)).2.2.2)

theorem string_mk_length (l : List Char) : (String.mk l).length = l.length := rfl

theorem string_mk_append (a b : List Char) :
    String.mk (a ++ b) = String.mk a ++ String.mk b := rfl

theorem truncMarker_length : truncMarker.length = 14 := rfl

theorem string_mk_toList (l : List Char) : (String.mk l).toList = l := rfl

/-- `extractPageContent` on the 100,000-character plain body: every pass
is inert, so both projections are the body itself, each then truncated
with the marker appended. -/
theorem extract_hundredK :
    extractPageContent hundredKBody =
      ⟨String.mk (List.replicate 60000 'a' ++ truncMarker),
       String.mk (List.replicate 30000 'a' ++ truncMarker)⟩ := by
  have hl : ∀ c ∈ List.replicate 100000 'a', plainChar c = true := by
    intro c hc
    rw [List.eq_of_mem_replicate hc]
    rfl
  simp only [extractPageContent, hundredKBody, string_mk_toList,
    sanitizedContent_plain _ hl, htmlProjection_plain _ hl, textProjection_plain _ hl]
  unfold truncateAt
  rw [if_pos (show 60000 < (List.replicate 100000 'a').length by
        rw [List.length_replicate]; norm_num),
      if_pos (show 30000 < (List.replicate 100000 'a').length by
        rw [List.length_replicate]; norm_num),
      List.take_replicate, List.take_replicate,
      show Min.min 60000 100000 = 60000 by norm_num,
      show Min.min 30000 100000 = 30000 by norm_num]

/-- Truncation keeps a projection within the cap, or cuts it to the cap
plus the 14-character marker which it then ends with. -/
theorem truncateAt_spec (cap : Nat) (l : List Char) :
    (truncateAt cap l).length ≤ cap ∨
      ((truncateAt cap l).length = cap + 14 ∧
        ∃ p : List Char, truncateAt cap l = p ++ truncMarker) := by
  unfold truncateAt
  split
  · rename_i h
    right
    refine ⟨?_, l.take cap, rfl⟩
    rw [List.length_append, List.length_take, truncMarker_length,
      Nat.min_eq_left (Nat.le_of_lt h)]
  · rename_i h
    left
    omega

set_option maxRecDepth 10000 in
/-- C3 (counterexample): the truncation marker `...[truncated]` has 14
characters, so on a 100,000-character body `extractPageContent` returns
html of length 60,014 and text of length 30,014 — above the claimed
60,010 and 30,010 bounds. -/
theorem sanitizerTruncation_counterexample :
    hundredKBody.length = 100000 ∧
    (extractPageContent hundredKBody).html.length = 60014 ∧
    (extractPageContent hundredKBody).text.length = 30014 ∧
    ¬ ((extractPageContent hundredKBody).html.length ≤ 60010 ∧
       (extractPageContent hundredKBody).text.length ≤ 30010) := by
  have he := extract_hundredK
  have h1 : (extractPageContent hundredKBody).html.length = 60014 := by
    rw [he, string_mk_length, List.length_append, List.length_replicate, truncMarker_length]
  have h2 : (extractPageContent hundredKBody).text.length = 30014 := by
    rw [he, string_mk_length, List.length_append, List.length_replicate, truncMarker_length]
  refine ⟨by simp only [hundredKBody, string_mk_length, List.length_replicate], h1, h2, ?_⟩
  intro hc
  omega

/-- C3 (amended): `extractPageContent` truncates its html projection to
60,000 characters and its text projection to 30,000, appending the
14-character marker `...[truncated]` when it cuts — so html never exceeds
60,014 characters and text never exceeds 30,014; on a 100,000-character
body both projections are cut and end with the marker. -/
theorem sanitizerTruncationBounds :
    (∀ h : String,
      ((extractPageContent h).html.length ≤ 60000 ∨
        ((extractPageContent h).html.length = 60014 ∧
          ∃ p : String, (extractPageContent h).html = p ++ String.mk truncMarker)) ∧
      ((extractPageContent h).text.length ≤ 30000 ∨
        ((extractPageContent h).text.length = 30014 ∧
          ∃ p : String, (extractPageContent h).text = p ++ String.mk truncMarker))) ∧
    (extractPageContent hundredKBody).html.length = 60014 ∧
    (∃ p : String, (extractPageContent hundredKBody).html = p ++ String.mk truncMarker) ∧
    (extractPageContent hundredKBody).text.length = 30014 ∧
    (∃ p : String, (extractPageContent hundredKBody).text = p ++ String.mk truncMarker) := by
  constructor
  · intro h
    constructor
    · rcases truncateAt_spec 60000 (htmlProjection (sanitizedContent h.toList)) with hb | ⟨hb, p, hp⟩
      · left
        rw [show (extractPageContent h).html =
          String.mk (truncateAt 60000 (htmlProjection (sanitizedContent h.toList))) from rfl,
          string_mk_length]
        exact hb
      · right
        rw [show (extractPageContent h).html =
          String.mk (truncateAt 60000 (htmlProjection (sanitizedContent h.toList))) from rfl]
        exact ⟨by rw [string_mk_length]; omega,
          String.mk p, by rw [hp, string_mk_append]⟩
    · rcases truncateAt_spec 30000 (textProjection (sanitizedContent h.toList)) with hb | ⟨hb, p, hp⟩
      · left
        rw [show (extractPageContent h).text =
          String.mk (truncateAt 30000 (textProjection (sanitizedContent h.toList))) from rfl,
          string_mk_length]
        exact hb
      · right
        rw [show (extractPageContent h).text =
          String.mk (truncateAt 30000 (textProjection (sanitizedContent h.toList))) from rfl]
        exact ⟨by rw [string_mk_length]; omega,
          String.mk p, by rw [hp, string_mk_append]⟩
  · have he := extract_hundredK
    refine ⟨?_, ⟨String.mk (List.replicate 60000 'a'), ?_⟩, ?_,
      ⟨String.mk (List.replicate 30000 'a'), ?_⟩⟩
    · rw [he, string_mk_length, List.length_append, List.length_replicate, truncMarker_length]
    · rw [he, ← string_mk_append]
    · rw [he, string_mk_length, List.length_append, List.length_replicate, truncMarker_length]
    · rw [he, ← string_mk_append]

set_option maxRecDepth 10000 in
/-- C10 (code bug): `extractPageContent` decodes HTML entities only after
removing script elements, so double-encoded input decodes — in a single
sanitization pass — into a live `<script>` element, and a second
application then removes it: the sanitizer is not idempotent on its own
output, contrary to the claim. -/
theorem sanitizer_not_idempotent :
    (extractPageContent doubleDecodeInput).html = "x<script>evil()</script>y" ∧
    containsStr "<script>".toList (extractPageContent doubleDecodeInput).html.toList = true ∧
    extractPageContent ((extractPageContent doubleDecodeInput).html) ≠
      extractPageContent doubleDecodeInput := by
  refine ⟨by decide, by decide, by decide⟩

set_option maxRecDepth 10000 in
/-- C4 (counterexample): `parseOrderAnalysis` applies no range check to
prices — on the response `{"products":[{"name":"X","price":50000}]}` it
returns a product priced 50000, which violates
`price === null || (0 < price < 10000)`. -/
theorem parserPriceBound_counterexample :
    (parseOrderAnalysis responseWithHugePrice).products.map (fun p => p.price) =
      [some (decimal 50000 0)] ∧
    (parseOrderAnalysis responseWithHugePrice).products.all priceInBounds = false ∧
    (decimal 50000 0).toRat = 50000 := by
  refine ⟨by decide, by decide, ?_⟩
  simp only [decimal, Dec.toRat]
  norm_num

set_option maxRecDepth 10000 in
/-- C4 (amended): every product price emitted by `parseOrderAnalysis` is
either `null` or the verbatim numeric `price` field of the response's
JSON — no sanity bound is applied, and out-of-range values such as 50000
pass through unchanged. -/
theorem parserPrice_passthrough :
    (∀ v : JsonVal, (buildProduct v).price =
      (match objGet v "price" with
       | some (JsonVal.num q) => some q
       | _ => none)) ∧
    (parseOrderAnalysis responseWithHugePrice).products.map (fun p => p.price) =
      [some (decimal 50000 0)] :=
  ⟨fun _ => rfl, by decide⟩

set_option maxRecDepth 10000 in
/-- C9 (counterexample): `parseOrderAnalysis` imposes neither the
10-product cap nor any name deduplication — a response with eleven
identically-named products yields eleven products, all named `"A"`. -/
theorem parserProducts_counterexample :
    (parseOrderAnalysis responseWithElevenDuplicates).products.length = 11 ∧
    (parseOrderAnalysis responseWithElevenDuplicates).products.map (fun p => p.name) =
      List.replicate 11 (JsonVal.str "A") ∧
    ¬ ((parseOrderAnalysis responseWithElevenDuplicates).products.length ≤ 10) := by
  have h1 : (parseOrderAnalysis responseWithElevenDuplicates).products.length = 11 := by rfl
  exact ⟨h1, by rfl, by rw [h1]; omega⟩

/-- The heuristic extractor on a text with no confirmation signal. -/
theorem heuristics_neg_eq (t : String)
    (h : (confirmationSignals.any
      fun sig => containsStr sig (t.toList.map Char.toLower)) = false) :
    analyzeOrderWithHeuristics t = defaultAnalysis := by
  simp only [analyzeOrderWithHeuristics, h, Bool.not_false, if_true]

/-- The heuristic extractor on a text with a confirmation signal,
unfolded to its record of results. -/
theorem heuristics_pos_eq (t : String)
    (h : (confirmationSignals.any
      fun sig => containsStr sig (t.toList.map Char.toLower)) = true) :
    analyzeOrderWithHeuristics t =
      { isOrderConfirmation := JsonVal.bool true,
        confidence := JsonVal.num (decimal 6 (-1)),
        products := (((splitLines t.toList).filter lineIsProduct).take 5).map lineToProduct,
        retailer := match retailerPatterns.find? (fun rp => rp.test t.toList) with
          | some rp => JsonVal.str rp.name
          | none => JsonVal.null,
        orderNumber := match orderNumCapture t.toList with
          | some run => jsOrElse (some (JsonVal.str (String.mk run))) JsonVal.null
          | none => JsonVal.null } := by
  simp only [analyzeOrderWithHeuristics, h, Bool.not_true, Bool.false_eq_true, if_false]

/-- C9 (amended): the heuristic extractor returns at most 5 products
(hence at most 10), but the LLM-response parser caps nothing and
deduplicates nothing: it emits exactly one normalized product per entry
of the response's products array. -/
theorem productListShape_amended :
    (∀ t : String, (analyzeOrderWithHeuristics t).products.length ≤ 5) ∧
    (∀ v : JsonVal, ∀ xs : List JsonVal,
      objGet v "products" = some (JsonVal.arr xs) → xs.any isNullJson = false →
      (buildAnalysis v).products = xs.map buildProduct) := by
  constructor
  · intro t
    simp only [analyzeOrderWithHeuristics]
    split
    · simp [defaultAnalysis]
    · simp only [List.length_map, List.length_take]
      omega
  · intro v xs hxs hnull
    unfold buildAnalysis
    rw [hxs]
    simp [hnull]

/-- Witness for the amended C9 statement at concrete inputs. -/
theorem productListShape_amended_witness :
    (analyzeOrderWithHeuristics "nothing relevant at all").products.length ≤ 5 ∧
    (buildAnalysis (JsonVal.obj [("products", JsonVal.arr [JsonVal.obj []])])).products =
      [buildProduct (JsonVal.obj [])] := by
  refine ⟨productListShape_amended.1 "nothing relevant at all", ?_⟩
  rw [productListShape_amended.2 (JsonVal.obj [("products", JsonVal.arr [JsonVal.obj []])])
    [JsonVal.obj []] rfl rfl]
  rfl

/-- C5: `parseOrderAnalysis` returns exactly the all-default analysis
whenever its input contains no parseable JSON object (it is a total
function, so it never raises), and each product field is independently
type-checked and defaulted: name to the placeholder `Unknown Product`,
price to null unless numeric, quantity to 1, isRecurring to false,
category and suggestedFrequencyDays to null. -/
theorem parserDefaults :
    (∀ r : String, toParsedJson r.toList = none → parseOrderAnalysis r = defaultAnalysis) ∧
    parseOrderAnalysis "The page is not an order confirmation." = defaultAnalysis ∧
    parseOrderAnalysis "\x7b\"isOrderConfirmation\": " = defaultAnalysis ∧
    parseOrderAnalysis "\x7b]\x7d" = defaultAnalysis ∧
    (∀ p : JsonVal,
      (objGet p "name" = none → (buildProduct p).name = JsonVal.str "Unknown Product") ∧
      ((∀ q : Dec, objGet p "price" ≠ some (JsonVal.num q)) →
        (buildProduct p).price = none) ∧
      ((∀ q : Dec, objGet p "quantity" ≠ some (JsonVal.num q)) →
        (buildProduct p).quantity = decimal 1 0) ∧
      ((∀ b : Bool, objGet p "isRecurring" ≠ some (JsonVal.bool b)) →
        (buildProduct p).isRecurring = false) ∧
      (objGet p "category" = none → (buildProduct p).category = JsonVal.null) ∧
      ((∀ q : Dec, objGet p "suggestedFrequencyDays" ≠ some (JsonVal.num q)) →
        (buildProduct p).suggestedFrequencyDays = none)) := by
  refine ⟨?_, by rfl, by rfl, by rfl, ?_⟩
  · intro r h
    unfold parseOrderAnalysis
    rw [h]
  · intro p
    refine ⟨?_, ?_, ?_, ?_, ?_, ?_⟩
    · intro h
      simp [buildProduct, jsOrElse, h]
    · intro hq
      simp only [buildProduct]
    · intro hq
      simp only [buildProduct]
    · intro hb
      simp only [buildProduct]
    · intro h
      simp [buildProduct, jsOrElse, h]
    · intro hq
      simp only [buildProduct]

/-- Witness for the C5 statement at concrete inputs. -/
theorem parserDefaults_witness :
    parseOrderAnalysis "no json here" = defaultAnalysis ∧
    (buildProduct (JsonVal.obj [])).name = JsonVal.str "Unknown Product" ∧
    (buildProduct (JsonVal.obj [])).price = none ∧
    (buildProduct (JsonVal.obj [])).quantity = decimal 1 0 ∧
    (buildProduct (JsonVal.obj [])).isRecurring = false ∧
    (buildProduct (JsonVal.obj [])).category = JsonVal.null ∧
    (buildProduct (JsonVal.obj [])).suggestedFrequencyDays = none := by
  refine ⟨parserDefaults.1 "no json here" rfl,
    (parserDefaults.2.2.2.2 (JsonVal.obj [])).1 rfl,
    (parserDefaults.2.2.2.2 (JsonVal.obj [])).2.1 (fun q hq => Option.noConfusion hq),
    (parserDefaults.2.2.2.2 (JsonVal.obj [])).2.2.1 (fun q hq => Option.noConfusion hq),
    (parserDefaults.2.2.2.2 (JsonVal.obj [])).2.2.2.1 (fun b hb => Option.noConfusion hb),
    (parserDefaults.2.2.2.2 (JsonVal.obj [])).2.2.2.2.1 rfl,
    (parserDefaults.2.2.2.2 (JsonVal.obj [])).2.2.2.2.2 (fun q hq => Option.noConfusion hq)⟩

/-- C7: the text-only heuristic extractor returns the all-default analysis
when none of its fixed confirmation phrases occurs in the lower-cased
text; otherwise it reports an order confirmation with confidence exactly
0.6 and at most five product lines — lines of strictly between 10 and 200
characters containing a dollar sign or a quantity marker — each paired
with its in-line price; on Scenario C's text it returns confirmed with
confidence 0.6. -/
theorem heuristics_spec :
    (∀ t : String, hasConfirmationSignal t = false →
      analyzeOrderWithHeuristics t = defaultAnalysis) ∧
    (∀ t : String, hasConfirmationSignal t = true →
      (analyzeOrderWithHeuristics t).isOrderConfirmation = JsonVal.bool true ∧
      (analyzeOrderWithHeuristics t).confidence = JsonVal.num (decimal 6 (-1)) ∧
      (analyzeOrderWithHeuristics t).products.length ≤ 5 ∧
      (∀ p ∈ (analyzeOrderWithHeuristics t).products,
        ∃ line ∈ splitLines t.toList,
          10 < line.length ∧ line.length < 200 ∧
          (containsStr ['$'] line = true ∨ qtyMarkerPat line = true) ∧
          p = lineToProduct line ∧ p.price = priceCapture line)) ∧
    ((analyzeOrderWithHeuristics scenarioCText).isOrderConfirmation = JsonVal.bool true ∧
      (analyzeOrderWithHeuristics scenarioCText).confidence = JsonVal.num (decimal 6 (-1))) ∧
    (decimal 6 (-1)).toRat = 0.6 := by
  refine ⟨?_, ?_, ⟨by rfl, by rfl⟩, decimal_6_toRat⟩
  · intro t h
    exact heuristics_neg_eq t h
  · intro t h
    rw [heuristics_pos_eq t h]
    refine ⟨rfl, rfl, ?_, ?_⟩
    · simp only [List.length_map, List.length_take]
      omega
    · intro p hp
      rcases List.mem_map.mp hp with ⟨line, hline, rfl⟩
      have hline' : line ∈ (splitLines t.toList).filter lineIsProduct :=
        List.mem_of_mem_take hline
      have hmem := (List.mem_filter.mp hline').1
      have hok := (List.mem_filter.mp hline').2
      simp only [lineIsProduct, Bool.and_eq_true, decide_eq_true_eq,
        Bool.or_eq_true] at hok
      exact ⟨line, hmem, hok.1.1, hok.1.2, hok.2, rfl, rfl⟩

/-- Witness for the C7 statement at concrete inputs. -/
theorem heuristics_spec_witness :
    analyzeOrderWithHeuristics "just a plain page" = defaultAnalysis ∧
    (analyzeOrderWithHeuristics scenarioCText).isOrderConfirmation = JsonVal.bool true ∧
    (analyzeOrderWithHeuristics scenarioCText).products.length ≤ 5 := by
  refine ⟨heuristics_spec.1 "just a plain page" (by decide), ?_, ?_⟩
  · exact (heuristics_spec.2.1 scenarioCText (by decide)).1
  · exact (heuristics_spec.2.1 scenarioCText (by decide)).2.2.1

end SubscribeAny
